import Mathlib

/-!
Verification of the deterministic analysis and orchestration subsystem of the
CodeReviewerGenAI repository: the AST-driven complexity and readability
analyzers (src/agents/complexity.py, src/agents/readability.py), the
plagiarism/similarity detector (src/agents/plagiarism.py), the stage
aggregator (src/agents/summarizer.py) and the workflow state machine
(src/agents/graph.py), shallowly embedded in Lean.

Source text is represented by `PySource`: the raw text together with the
outcome of `ast.parse` on it (the parser is an external collaborator; its
result on each concrete input is part of the input of the embedding).  The
Python AST is embedded as the inductive types `PyExpr` / `PyStmt` /
`PyModule`, covering the node kinds the analyzed code inspects
(`FunctionDef`, `ClassDef`, `For`, `While`, `If`, `IfExp`, `Assign`,
`Import`, `ImportFrom`, `Return`, `Name`, `Constant`, calls and operators);
calls are embedded with a single argument, which is the fragment of Python
the claims exercise.
-/

set_option autoImplicit false

namespace CodeReview

/-- Expression context of a `Name` node (`ast.Load` / `ast.Store` / `ast.Del`). -/
inductive PyCtx where
  | load
  | store
  | del
  deriving DecidableEq, Repr

/-- Value of an `ast.Constant` node. -/
inductive PyConst where
  | intV (n : Int)
  | strV (s : String)
  | boolV (b : Bool)
  | noneV
  deriving DecidableEq, Repr

/-- Python expressions (the node kinds inspected by the analyzed code). -/
inductive PyExpr where
  | name (id : String) (ctx : PyCtx)
  | const (value : PyConst)
  | binOp (left right : PyExpr)
  | call (func arg : PyExpr)
  | ifExp (test body orelse : PyExpr)
  deriving DecidableEq, Repr

/-- Python statements.  `lineno` / `endLineno` are the location attributes the
readability and complexity visitors read. -/
inductive PyStmt where
  | functionDef (name : String) (args : List String) (body : List PyStmt)
      (lineno endLineno : Nat)
  | classDef (name : String) (body : List PyStmt) (lineno : Nat)
  | forS (target iter : PyExpr) (body : List PyStmt) (lineno : Nat)
  | whileS (test : PyExpr) (body : List PyStmt) (lineno : Nat)
  | ifS (test : PyExpr) (body orelse : List PyStmt)
  | assign (target : PyExpr) (value : PyExpr) (lineno : Nat)
  | exprS (value : PyExpr)
  | importS (names : List String)
  | importFrom (module : String)
  | ret (value : PyExpr)

/-- An `ast.Module` node. -/
structure PyModule where
  body : List PyStmt

/-- A piece of source text together with the outcome of `ast.parse` on it:
`parsed = none` models `ast.parse` raising `SyntaxError`. -/
structure PySource where
  text : String
  parsed : Option PyModule

/-! ### PlagiarismDetector._normalize_ast (src/agents/plagiarism.py:90-112)

`NormalizeTransformer` overrides `visit_Name` (sets `id` to `"var"`, does not
recurse), `visit_FunctionDef` (sets `name` to `"func"`, recurses),
`visit_ClassDef` (sets `name` to `"Class"`, recurses) and `visit_Constant`
(sets `value` to `None`, does not recurse); every other node kind is handled
by `generic_visit`, which recurses into the children unchanged.  Note that
the `args` of a `FunctionDef` are `ast.arg` nodes, not `Name` nodes, so
parameter names survive normalization. -/

def normExpr : PyExpr → PyExpr
  | .name _ ctx => .name "var" ctx
  | .const _ => .const .noneV
  | .binOp l r => .binOp (normExpr l) (normExpr r)
  | .call f a => .call (normExpr f) (normExpr a)
  | .ifExp t b o => .ifExp (normExpr t) (normExpr b) (normExpr o)

mutual

def normStmt : PyStmt → PyStmt
  | .functionDef _ args body l e => .functionDef "func" args (normStmts body) l e
  | .classDef _ body l => .classDef "Class" (normStmts body) l
  | .forS t i body l => .forS (normExpr t) (normExpr i) (normStmts body) l
  | .whileS t body l => .whileS (normExpr t) (normStmts body) l
  | .ifS t b o => .ifS (normExpr t) (normStmts b) (normStmts o)
  | .assign t v l => .assign (normExpr t) (normExpr v) l
  | .exprS v => .exprS (normExpr v)
  | .importS ns => .importS ns
  | .importFrom m => .importFrom m
  | .ret v => .ret (normExpr v)

def normStmts : List PyStmt → List PyStmt
  | [] => []
  | s :: rest => normStmt s :: normStmts rest

end

def normModule (m : PyModule) : PyModule := ⟨normStmts m.body⟩

/-! ### str(normalized_ast) and hashlib.md5

`_check_ast_similarity` and `add_to_database` serialize the normalized tree
with `str(...)` and hash the serialization with `hashlib.md5(...).hexdigest()`
(src/agents/plagiarism.py:67, 257).  `astRepr` is the structural
serialization of the tree (the field-by-field repr of the AST, which excludes
location attributes).  `md5Hexdigest` models the hex digest as a
deterministic digest of the serialized string; no claim depends on the MD5
algorithm itself, only on digest equality of equal strings, so the digest is
modelled collision-free. -/

def reprCtx : PyCtx → String
  | .load => "Load()"
  | .store => "Store()"
  | .del => "Del()"

def reprConst : PyConst → String
  | .intV n => toString n
  | .strV s => "'" ++ s ++ "'"
  | .boolV b => if b then "True" else "False"
  | .noneV => "None"

def reprExpr : PyExpr → String
  | .name id ctx => "Name(id='" ++ id ++ "', ctx=" ++ reprCtx ctx ++ ")"
  | .const v => "Constant(value=" ++ reprConst v ++ ")"
  | .binOp l r => "BinOp(left=" ++ reprExpr l ++ ", right=" ++ reprExpr r ++ ")"
  | .call f a => "Call(func=" ++ reprExpr f ++ ", args=[" ++ reprExpr a ++ "])"
  | .ifExp t b o =>
      "IfExp(test=" ++ reprExpr t ++ ", body=" ++ reprExpr b ++
        ", orelse=" ++ reprExpr o ++ ")"

def reprArgs : List String → String
  | [] => ""
  | [a] => "arg(arg='" ++ a ++ "')"
  | a :: rest => "arg(arg='" ++ a ++ "'), " ++ reprArgs rest

def reprNames : List String → String
  | [] => ""
  | [n] => "'" ++ n ++ "'"
  | n :: rest => "'" ++ n ++ "', " ++ reprNames rest

mutual

def reprStmt : PyStmt → String
  | .functionDef name args body _ _ =>
      "FunctionDef(name='" ++ name ++ "', args=arguments(args=[" ++ reprArgs args ++
        "]), body=" ++ reprStmts body ++ ")"
  | .classDef name body _ =>
      "ClassDef(name='" ++ name ++ "', body=" ++ reprStmts body ++ ")"
  | .forS t i body _ =>
      "For(target=" ++ reprExpr t ++ ", iter=" ++ reprExpr i ++
        ", body=" ++ reprStmts body ++ ")"
  | .whileS t body _ =>
      "While(test=" ++ reprExpr t ++ ", body=" ++ reprStmts body ++ ")"
  | .ifS t b o =>
      "If(test=" ++ reprExpr t ++ ", body=" ++ reprStmts b ++
        ", orelse=" ++ reprStmts o ++ ")"
  | .assign t v _ =>
      "Assign(targets=[" ++ reprExpr t ++ "], value=" ++ reprExpr v ++ ")"
  | .exprS v => "Expr(value=" ++ reprExpr v ++ ")"
  | .importS ns => "Import(names=[" ++ reprNames ns ++ "])"
  | .importFrom m => "ImportFrom(module='" ++ m ++ "')"
  | .ret v => "Return(value=" ++ reprExpr v ++ ")"

def reprStmts : List PyStmt → String
  | [] => "[]"
  | s :: rest => "[" ++ reprStmt s ++ reprStmtsTail rest ++ "]"

def reprStmtsTail : List PyStmt → String
  | [] => ""
  | s :: rest => ", " ++ reprStmt s ++ reprStmtsTail rest

end

def astRepr (m : PyModule) : String := "Module(body=" ++ reprStmts m.body ++ ")"

/-- Models `hashlib.md5(s.encode()).hexdigest()` as a collision-free
deterministic digest (see the section comment above). -/
def md5Hexdigest (s : String) : String := s

/-! ### PlagiarismDetector._extract_structural_features (plagiarism.py:188-222)

Walks every node of the tree counting `FunctionDef`, `ClassDef`, `For`/`While`,
`If`/`IfExp` nodes and collecting `Import` alias names and `ImportFrom`
modules.  The `avg_function_length` and `max_nesting_depth` keys of the
feature dict are initialized to 0 and never updated by the walk.  On a parse
error the internal `try` swallows the exception and the default (all-zero)
feature dict is returned.  (`ast.walk` enumerates nodes breadth-first; the
embedding collects imports in depth-first order, which only affects the list
order, and the imports are consumed as a set.) -/

structure Features where
  num_functions : Nat
  num_classes : Nat
  num_loops : Nat
  num_conditionals : Nat
  avg_function_length : Rat
  max_nesting_depth : Nat
  imports : List String
  deriving DecidableEq, Repr

def emptyFeatures : Features := ⟨0, 0, 0, 0, 0, 0, []⟩

def featExpr (acc : Features) : PyExpr → Features
  | .name _ _ => acc
  | .const _ => acc
  | .binOp l r => featExpr (featExpr acc l) r
  | .call f a => featExpr (featExpr acc f) a
  | .ifExp t b o =>
      featExpr (featExpr (featExpr
        { acc with num_conditionals := acc.num_conditionals + 1 } t) b) o

mutual

def featStmt (acc : Features) : PyStmt → Features
  | .functionDef _ _ body _ _ =>
      featStmts { acc with num_functions := acc.num_functions + 1 } body
  | .classDef _ body _ =>
      featStmts { acc with num_classes := acc.num_classes + 1 } body
  | .forS t i body _ =>
      featStmts (featExpr (featExpr
        { acc with num_loops := acc.num_loops + 1 } t) i) body
  | .whileS t body _ =>
      featStmts (featExpr { acc with num_loops := acc.num_loops + 1 } t) body
  | .ifS t b o =>
      featStmts (featStmts (featExpr
        { acc with num_conditionals := acc.num_conditionals + 1 } t) b) o
  | .assign t v _ => featExpr (featExpr acc t) v
  | .exprS v => featExpr acc v
  | .importS ns => { acc with imports := acc.imports ++ ns }
  | .importFrom m => { acc with imports := acc.imports ++ [m] }
  | .ret v => featExpr acc v

def featStmts (acc : Features) : List PyStmt → Features
  | [] => acc
  | s :: rest => featStmts (featStmt acc s) rest

end

def extractStructuralFeatures (src : PySource) : Features :=
  match src.parsed with
  | none => emptyFeatures
  | some m => featStmts emptyFeatures m.body

/-! ### PlagiarismDetector._calculate_structural_similarity (plagiarism.py:224-249) -/

/-- One numeric-feature comparison term: skipped when both counts are zero,
otherwise `1 - |a-b| / max(a,b)`. -/
def numericTerm (a b : Nat) : List Rat :=
  if max a b > 0 then [1 - |(a : Rat) - (b : Rat)| / (max a b : Rat)] else []

def numericTerms (f1 f2 : Features) : List Rat :=
  numericTerm f1.num_functions f2.num_functions ++
  numericTerm f1.num_classes f2.num_classes ++
  numericTerm f1.num_loops f2.num_loops ++
  numericTerm f1.num_conditionals f2.num_conditionals

/-- Jaccard similarity of the two import sets, appended only when at least one
set is nonempty (`if imports1 or imports2`). -/
def jaccardTerm (l1 l2 : List String) : List Rat :=
  if l1 = [] ∧ l2 = [] then []
  else
    let inter := (l1.dedup.filter (fun x => l2.contains x)).length
    let union := (l1 ++ l2).dedup.length
    [if union > 0 then (inter : Rat) / (union : Rat) else 0]

/-- `_calculate_structural_similarity`.  The feature dict literal always
carries its seven keys, so the Python emptiness guard
`if not features1 or not features2` never fires and all four numeric keys are
present in both dicts. -/
def structuralSimilarity (f1 f2 : Features) : Rat :=
  let numerical_scores := numericTerms f1 f2 ++ jaccardTerm f1.imports f2.imports
  if numerical_scores.length > 0 then
    numerical_scores.sum / (numerical_scores.length : Rat)
  else 0

/-! ### The known-solutions corpus -/

/-- One entry of `known_solutions`, as built by `add_to_database`
(plagiarism.py:262-268): all five keys are stored. -/
structure Solution where
  code : String
  source : String
  ast_hash : String
  features : Features
  timestamp : String

/-- A match record `{"source": ..., "similarity": ..., "method": ...}` with a
rational similarity (the AST and structural methods). -/
structure QMatch where
  source : String
  similarity : Rat
  method : String
  deriving DecidableEq, Repr

/-- Python `max` over a nonempty list (the embedding returns 0 on `[]`, a case
the call sites never reach). -/
def pyMaxQ : List Rat → Rat
  | [] => 0
  | h :: t => t.foldl max h

/-! ### PlagiarismDetector._check_ast_similarity (plagiarism.py:59-88) -/

structure AstResult where
  score : Rat
  matchList : List QMatch
  ast_hash : Option String

/-- On `SyntaxError` the `except` branch returns `{"score": 0, "matches": []}`. -/
def checkAstSimilarity (db : List Solution) (code : PySource) : AstResult :=
  match code.parsed with
  | none => { score := 0, matchList := [], ast_hash := none }
  | some tree =>
      let ast_hash := md5Hexdigest (astRepr (normModule tree))
      let matchList := (db.filter (fun known => known.ast_hash = ast_hash)).map
        (fun known => { source := known.source, similarity := 1,
                        method := "exact_ast_match" : QMatch })
      { score := if matchList = [] then 0 else 1, matchList := matchList,
        ast_hash := some ast_hash }

/-! ### PlagiarismDetector._check_structure_similarity (plagiarism.py:156-186) -/

structure StructResult where
  score : Rat
  matchList : List QMatch
  features : Features

def checkStructureSimilarity (db : List Solution) (code : PySource) : StructResult :=
  let features := extractStructuralFeatures code
  let matchList := (db.filter
      (fun known => structuralSimilarity features known.features > (0.8 : Rat))).map
    (fun known => { source := known.source,
                    similarity := structuralSimilarity features known.features,
                    method := "structural" : QMatch })
  { score := if matchList = [] then 0 else pyMaxQ (matchList.map QMatch.similarity),
    matchList := matchList, features := features }

/-! ### PlagiarismDetector.add_to_database (plagiarism.py:251-277)

The dict literal appended to `known_solutions` evaluates
`import_datetime().datetime.now().isoformat()` for its `"timestamp"` key.
`import_datetime` is only a method of `PlagiarismDetector` (line 274); the
bare name is resolved against the function's locals, the module globals and
the builtins, none of which bind it, so evaluating the literal raises
`NameError` before `append` is called; the surrounding
`except Exception` logs and swallows it. -/

inductive PyError where
  | syntaxError
  | nameError (name : String)
  deriving DecidableEq, Repr

/-- Module-level global names of src/agents/plagiarism.py (its imports and
top-level definitions). -/
def plagiarismModuleGlobals : List String :=
  ["ast", "hashlib", "List", "Dict", "Tuple", "np", "TfidfVectorizer",
   "cosine_similarity", "logging", "logger", "PlagiarismDetector"]

/-- Local names bound in `add_to_database`'s frame by the time the dict
literal is evaluated. -/
def addToDatabaseLocals : List String :=
  ["self", "code", "source", "tree", "normalized", "ast_hash", "features"]

/-- A representative slice of the Python builtins namespace;
`import_datetime` is not a builtin. -/
def pythonBuiltins : List String :=
  ["str", "len", "max", "min", "set", "sum", "abs", "enumerate", "float",
   "isinstance", "hasattr", "print", "range", "list", "dict"]

def addToDatabaseScope : List String :=
  addToDatabaseLocals ++ plagiarismModuleGlobals ++ pythonBuiltins

/-- Bare-name resolution (LEGB without an enclosing function scope). -/
def lookupName (scope : List String) (n : String) : Except PyError Unit :=
  if n ∈ scope then .ok () else .error (.nameError n)

/-- The body of the `try` block of `add_to_database`: parse, normalize, hash,
extract features, then build the dict literal (whose `"timestamp"` entry
evaluates the bare name `import_datetime`) and append it. -/
def addToDatabaseBody (db : List Solution) (code : PySource) (source : String) :
    Except PyError (List Solution) :=
  match code.parsed with
  | none => .error .syntaxError
  | some tree =>
      let normalized := normModule tree
      let ast_hash := md5Hexdigest (astRepr normalized)
      let features := extractStructuralFeatures code
      match lookupName addToDatabaseScope "import_datetime" with
      | .error e => .error e
      | .ok _ =>
          .ok (db ++ [{ code := code.text, source := source, ast_hash := ast_hash,
                        features := features, timestamp := "" }])

/-- `add_to_database`: the `except Exception` handler logs the error and
returns, leaving `known_solutions` unchanged. -/
def addToDatabase (db : List Solution) (code : PySource) (source : String) :
    List Solution :=
  match addToDatabaseBody db code source with
  | .ok db' => db'
  | .error _ => db

/-! ### PlagiarismDetector._check_tfidf_similarity (plagiarism.py:114-154)

The lexical method delegates to sklearn's `TfidfVectorizer(analyzer='word',
token_pattern=r'\\w+', ngram_range=(1, 3), min_df=1)` with its defaults
`lowercase=True`, `norm='l2'`, `use_idf=True`, `smooth_idf=True`,
`sublinear_tf=False`, fit on the corpus texts plus the query, followed by
`cosine_similarity` of the query row against the corpus rows.  Embedded in
exact real arithmetic: tokens are the maximal runs of word characters of the
lowercased text; the feature set is the word n-grams of sizes 1 to 3 (joined
by single spaces) occurring in any document; the weight of feature `g` in
document `d` is `count(g, d) * (ln((1 + nDocs) / (1 + df(g))) + 1)`; rows are
l2-normalized, so the similarity of two rows is the cosine of the raw
vectors (0 when a row is zero).  An empty vocabulary makes `fit_transform`
raise, which the `except` turns into score 0. -/

def isWordChar (c : Char) : Bool := c.isAlphanum || c = '_'

/-- ASCII lowercasing (the vectorizer's `lowercase=True`; the texts involved
are ASCII). -/
def asciiLower (c : Char) : Char :=
  if 'A' ≤ c ∧ c ≤ 'Z' then Char.ofNat (c.toNat + 32) else c

def tokenizeAux : List Char → List Char → List String
  | [], cur => if cur = [] then [] else [String.mk cur.reverse]
  | c :: rest, cur =>
      if isWordChar c then tokenizeAux rest (c :: cur)
      else if cur = [] then tokenizeAux rest []
      else String.mk cur.reverse :: tokenizeAux rest []

def tokenize (s : String) : List String := tokenizeAux (s.toList.map asciiLower) []

def ngramsOfLen (toks : List String) (n : Nat) : List String :=
  (List.range (toks.length + 1 - n)).map
    (fun i => " ".intercalate ((toks.drop i).take n))

def wordNgrams (toks : List String) : List String :=
  ngramsOfLen toks 1 ++ ngramsOfLen toks 2 ++ ngramsOfLen toks 3

def docNgrams (text : String) : List String := wordNgrams (tokenize text)

def vocabulary (docs : List String) : List String :=
  ((docs.map docNgrams).flatten).dedup

def termCount (g : String) (text : String) : Nat := (docNgrams text).count g

def docFreq (docs : List String) (g : String) : Nat :=
  (docs.filter (fun d => (docNgrams d).contains g)).length

noncomputable def idf (nDocs dfG : Nat) : ℝ :=
  Real.log ((1 + nDocs : ℝ) / (1 + dfG : ℝ)) + 1

noncomputable def tfidfWeight (docs : List String) (d g : String) : ℝ :=
  (termCount g d : ℝ) * idf docs.length (docFreq docs g)

noncomputable def tfidfDot (docs : List String) (d1 d2 : String) : ℝ :=
  ((vocabulary docs).map (fun g => tfidfWeight docs d1 g * tfidfWeight docs d2 g)).sum

noncomputable def tfidfCosine (docs : List String) (d1 d2 : String) : ℝ :=
  if tfidfDot docs d1 d1 = 0 ∨ tfidfDot docs d2 d2 = 0 then 0
  else tfidfDot docs d1 d2 /
    (Real.sqrt (tfidfDot docs d1 d1) * Real.sqrt (tfidfDot docs d2 d2))

/-- A match record with a real similarity (as assembled into the final
`detect` result; `matchList` embeds the `"matches"` key, whose name is a
Lean keyword). -/
structure RMatch where
  source : String
  similarity : ℝ
  method : String

structure TfidfResult where
  score : ℝ
  matchList : List RMatch

/-- Python `max` over a nonempty list of floats (0 on `[]`, unreachable at the
call site). -/
noncomputable def pyMaxR : List ℝ → ℝ
  | [] => 0
  | h :: t => t.foldl max h

open scoped Classical in
/-- `_check_tfidf_similarity`: corpus empty short-circuits to score 0; the
documents are the corpus codes followed by the query; matches are the corpus
entries whose cosine with the query exceeds the fixed sub-threshold 0.7; the
score is the maximum cosine. -/
noncomputable def checkTfidfSimilarity (db : List Solution) (code : PySource) :
    TfidfResult :=
  if db = [] then { score := 0, matchList := [] }
  else
    let documents := db.map Solution.code ++ [code.text]
    if vocabulary documents = [] then { score := 0, matchList := [] }
    else
      let matchList := (db.filter
          (fun s => tfidfCosine documents code.text s.code > 0.7)).map
        (fun s => { source := s.source,
                    similarity := tfidfCosine documents code.text s.code,
                    method := "tfidf" : RMatch })
      { score := pyMaxR (db.map (fun s => tfidfCosine documents code.text s.code)),
        matchList := matchList }

/-! ### PlagiarismDetector.detect (plagiarism.py:21-57) -/

structure DetectResult where
  similarity_score : ℝ
  matchList : List RMatch
  method : String

def qMatchToR (m : QMatch) : RMatch :=
  { source := m.source, similarity := (m.similarity : ℝ), method := m.method }

open scoped Classical in
/-- `detect`: the three methods in order, returning at the first whose score
strictly exceeds `threshold`; the structural report is the unconditional
fallback.  (The initial `results` dict with method `"none"` is always
overwritten before being returned.) -/
noncomputable def detect (db : List Solution) (code : PySource) (threshold : ℝ) :
    DetectResult :=
  let ast_similarity := checkAstSimilarity db code
  if ((ast_similarity.score : ℝ) > threshold) then
    { similarity_score := (ast_similarity.score : ℝ),
      matchList := ast_similarity.matchList.map qMatchToR, method := "ast" }
  else
    let tfidf_similarity := checkTfidfSimilarity db code
    if tfidf_similarity.score > threshold then
      { similarity_score := tfidf_similarity.score,
        matchList := tfidf_similarity.matchList, method := "tfidf" }
    else
      let struct_similarity := checkStructureSimilarity db code
      { similarity_score := (struct_similarity.score : ℝ),
        matchList := struct_similarity.matchList.map qMatchToR,
        method := "structure" }

/-! ## Shared lemmas about registration -/

/-- The bare name `import_datetime` is not bound in `add_to_database`'s scope. -/
theorem lookup_import_datetime :
    lookupName addToDatabaseScope "import_datetime" =
      .error (.nameError "import_datetime") := by
  rfl

/-- `add_to_database` never changes the corpus. -/
theorem addToDatabase_eq_self (db : List Solution) (code : PySource)
    (source : String) : addToDatabase db code source = db := by
  unfold addToDatabase addToDatabaseBody
  cases code.parsed with
  | none => rfl
  | some t => rw [lookup_import_datetime]

/-- The module `x = 1`. -/
def astXeq1 : PyModule := ⟨[.assign (.name "x" .store) (.const (.intV 1)) 1]⟩

/-- The module `y = 1`: differs from `astXeq1` only in the identifier name. -/
def astYeq1 : PyModule := ⟨[.assign (.name "y" .store) (.const (.intV 1)) 1]⟩

def srcXeq1 : PySource := ⟨"x = 1", some astXeq1⟩

def srcYeq1 : PySource := ⟨"y = 1", some astYeq1⟩

/-- C2: for every corpus state, source text and label, `add_to_database`
leaves `known_solutions` unchanged: for a parseable source the `try` body
stops with `NameError` at the bare name `import_datetime` while the
`"timestamp"` entry of the dict literal is evaluated (so nothing is ever
appended), and the handler swallows the exception; registration is an
observable no-op. -/
theorem C2_add_to_database_is_noop (db : List Solution) (code : PySource)
    (source : String) :
    addToDatabase db code source = db ∧
    (∀ t, code.parsed = some t →
      addToDatabaseBody db code source = .error (.nameError "import_datetime")) := by
  refine ⟨addToDatabase_eq_self db code source, fun t ht => ?_⟩
  unfold addToDatabaseBody
  rw [ht, lookup_import_datetime]

theorem C2_add_to_database_is_noop_witness :
    addToDatabase [] srcXeq1 "known_lib" = [] ∧
    addToDatabaseBody [] srcXeq1 "known_lib" =
      .error (.nameError "import_datetime") :=
  ⟨(C2_add_to_database_is_noop [] srcXeq1 "known_lib").1,
   (C2_add_to_database_is_noop [] srcXeq1 "known_lib").2 astXeq1 rfl⟩

/-- C1 (code bug): registering `x = 1` under the label `known_lib` and then
querying the identical source yields a structural-hash score of 0 and an
empty match list (the fallback structural report), not a score of 1.0 with
the label among the matches: the registration appended nothing. -/
theorem C1_register_then_detect_identical_scores_zero :
    (detect (addToDatabase [] srcXeq1 "known_lib") srcXeq1 0.8).similarity_score = 0 ∧
    (detect (addToDatabase [] srcXeq1 "known_lib") srcXeq1 0.8).matchList = [] ∧
    (checkAstSimilarity (addToDatabase [] srcXeq1 "known_lib") srcXeq1).score = 0 := by
  rw [addToDatabase_eq_self]
  refine ⟨?_, ?_, rfl⟩ <;>
    · simp [detect, checkAstSimilarity, checkTfidfSimilarity,
        checkStructureSimilarity, srcXeq1]
      norm_num

/-- C8 (code bug): normalization does erase identifier, literal and
function/class names - the modules `x = 1` and `y = 1` serialize and hash
identically after normalization - but registering A and querying its renamed
copy B still yields a structural-hash score of 0, because `add_to_database`
never stores A. -/
theorem C8_rename_only_clone_not_detected :
    md5Hexdigest (astRepr (normModule astXeq1)) =
      md5Hexdigest (astRepr (normModule astYeq1)) ∧
    (detect (addToDatabase [] srcXeq1 "known_lib") srcYeq1 0.8).similarity_score = 0 ∧
    (checkAstSimilarity (addToDatabase [] srcXeq1 "known_lib") srcYeq1).score = 0 := by
  refine ⟨rfl, ?_, ?_⟩ <;> rw [addToDatabase_eq_self]
  · simp [detect, checkAstSimilarity, checkTfidfSimilarity,
      checkStructureSimilarity, srcYeq1]
    norm_num
  · rfl

/-! ## The structural method degrades to score 0 on a parse failure -/

theorem mem_numericTerm_zero_left {x : ℚ} {b : Nat}
    (hx : x ∈ numericTerm 0 b) : x = 0 := by
  unfold numericTerm at hx
  rcases Nat.eq_zero_or_pos b with hb | hb
  · subst hb; simp at hx
  · have hb0 : (b : ℚ) ≠ 0 := Nat.cast_ne_zero.mpr hb.ne'
    rw [if_pos (by simpa using hb)] at hx
    simp only [List.mem_singleton] at hx
    subst hx
    rw [Nat.cast_zero, zero_sub, abs_neg, Nat.abs_cast, sup_eq_max,
      max_eq_right (by positivity : (0:ℚ) ≤ (b:ℚ)), div_self hb0, sub_self]

theorem mem_jaccardTerm_nil_left {x : ℚ} {l2 : List String}
    (hx : x ∈ jaccardTerm [] l2) : x = 0 := by
  unfold jaccardTerm at hx
  rcases eq_or_ne l2 [] with h2 | h2
  · subst h2; simp at hx
  · rw [if_neg (by simp [h2])] at hx
    simp only [List.mem_singleton] at hx
    subst hx
    split <;> simp

/-- A query whose parse failed compares with feature similarity 0 against
every corpus entry. -/
theorem structuralSimilarity_emptyFeatures (f : Features) :
    structuralSimilarity emptyFeatures f = 0 := by
  have hsum : (numericTerms emptyFeatures f ++
      jaccardTerm emptyFeatures.imports f.imports).sum = 0 := by
    refine List.sum_eq_zero fun x hx => ?_
    rcases List.mem_append.mp hx with hx | hx
    · unfold numericTerms at hx
      rcases List.mem_append.mp hx with hx | hx
      rcases List.mem_append.mp hx with hx | hx
      rcases List.mem_append.mp hx with hx | hx
      all_goals exact mem_numericTerm_zero_left hx
    · exact mem_jaccardTerm_nil_left hx
  simp only [structuralSimilarity]
  rw [hsum]
  split <;> simp

theorem checkStructureSimilarity_parse_fail (db : List Solution)
    (code : PySource) (h : code.parsed = none) :
    (checkStructureSimilarity db code).score = 0 ∧
    (checkStructureSimilarity db code).matchList = [] := by
  have hf : extractStructuralFeatures code = emptyFeatures := by
    unfold extractStructuralFeatures; rw [h]
  have hfil : db.filter (fun known =>
      structuralSimilarity (extractStructuralFeatures code) known.features >
        (0.8 : ℚ)) = [] := by
    refine List.filter_eq_nil_iff.mpr fun a _ => ?_
    rw [hf, structuralSimilarity_emptyFeatures]
    norm_num
  constructor <;> simp [checkStructureSimilarity, hfil]

theorem checkAstSimilarity_parse_fail (db : List Solution) (code : PySource)
    (h : code.parsed = none) : (checkAstSimilarity db code).score = 0 := by
  unfold checkAstSimilarity; rw [h]

theorem checkAstSimilarity_nil (code : PySource) :
    (checkAstSimilarity [] code).score = 0 ∧
    (checkAstSimilarity [] code).matchList = [] := by
  unfold checkAstSimilarity
  cases code.parsed <;> simp

theorem checkTfidfSimilarity_nil (code : PySource) :
    checkTfidfSimilarity [] code = { score := 0, matchList := [] } := by
  unfold checkTfidfSimilarity
  rw [if_pos rfl]

theorem checkStructureSimilarity_nil (code : PySource) :
    (checkStructureSimilarity [] code).score = 0 ∧
    (checkStructureSimilarity [] code).matchList = [] := by
  constructor <;> simp [checkStructureSimilarity]

/-- C6 (amended): `detect` runs the structural-hash, lexical and
structural-feature methods in this fixed order and returns the first method's
report whose score strictly exceeds the threshold, falling back to the
structural method's report otherwise; it always returns a report; on an empty
corpus the returned score is 0 with no matches; and on a parse failure the
structural-hash and structural-feature scores are both 0 (the lexical method
does not parse the query and can still exceed the threshold, so the claim's
"on a parse failure the returned score is 0" fails; see the counterexample). -/
theorem C6_detect_priority_and_fallback (db : List Solution) (code : PySource)
    (threshold : ℝ) :
    ((detect db code threshold).method = "ast" →
        ((checkAstSimilarity db code).score : ℝ) > threshold ∧
        (detect db code threshold).similarity_score =
          ((checkAstSimilarity db code).score : ℝ)) ∧
    ((detect db code threshold).method = "tfidf" →
        ¬(((checkAstSimilarity db code).score : ℝ) > threshold) ∧
        (checkTfidfSimilarity db code).score > threshold ∧
        (detect db code threshold).similarity_score =
          (checkTfidfSimilarity db code).score) ∧
    ((detect db code threshold).method = "structure" →
        ¬(((checkAstSimilarity db code).score : ℝ) > threshold) ∧
        ¬((checkTfidfSimilarity db code).score > threshold) ∧
        (detect db code threshold).similarity_score =
          ((checkStructureSimilarity db code).score : ℝ)) ∧
    (db = [] → (detect db code threshold).similarity_score = 0 ∧
        (detect db code threshold).matchList = []) ∧
    (code.parsed = none → (checkAstSimilarity db code).score = 0 ∧
        (checkStructureSimilarity db code).score = 0) := by
  classical
  refine ⟨?_, ?_, ?_, ?_, fun hp => ⟨checkAstSimilarity_parse_fail db code hp,
    (checkStructureSimilarity_parse_fail db code hp).1⟩⟩ <;>
  by_cases h1 : ((checkAstSimilarity db code).score : ℝ) > threshold
  case pos =>
    have hd : detect db code threshold =
        { similarity_score := ((checkAstSimilarity db code).score : ℝ),
          matchList := (checkAstSimilarity db code).matchList.map qMatchToR,
          method := "ast" } := by
      simp only [detect]; rw [if_pos h1]
    exact fun _ => ⟨h1, by rw [hd]⟩
  case neg =>
    intro hm
    by_cases h2 : (checkTfidfSimilarity db code).score > threshold
    · have hd : detect db code threshold =
          { similarity_score := (checkTfidfSimilarity db code).score,
            matchList := (checkTfidfSimilarity db code).matchList,
            method := "tfidf" } := by
        simp only [detect]; rw [if_neg h1, if_pos h2]
      rw [hd] at hm; simp at hm
    · have hd : detect db code threshold =
          { similarity_score := ((checkStructureSimilarity db code).score : ℝ),
            matchList := (checkStructureSimilarity db code).matchList.map qMatchToR,
            method := "structure" } := by
        simp only [detect]; rw [if_neg h1, if_neg h2]
      rw [hd] at hm; simp at hm
  case pos =>
    have hd : detect db code threshold =
        { similarity_score := ((checkAstSimilarity db code).score : ℝ),
          matchList := (checkAstSimilarity db code).matchList.map qMatchToR,
          method := "ast" } := by
      simp only [detect]; rw [if_pos h1]
    intro hm; rw [hd] at hm; simp at hm
  case neg =>
    by_cases h2 : (checkTfidfSimilarity db code).score > threshold
    · have hd : detect db code threshold =
          { similarity_score := (checkTfidfSimilarity db code).score,
            matchList := (checkTfidfSimilarity db code).matchList,
            method := "tfidf" } := by
        simp only [detect]; rw [if_neg h1, if_pos h2]
      exact fun _ => ⟨h1, h2, by rw [hd]⟩
    · have hd : detect db code threshold =
          { similarity_score := ((checkStructureSimilarity db code).score : ℝ),
            matchList := (checkStructureSimilarity db code).matchList.map qMatchToR,
            method := "structure" } := by
        simp only [detect]; rw [if_neg h1, if_neg h2]
      intro hm; rw [hd] at hm; simp at hm
  case pos =>
    have hd : detect db code threshold =
        { similarity_score := ((checkAstSimilarity db code).score : ℝ),
          matchList := (checkAstSimilarity db code).matchList.map qMatchToR,
          method := "ast" } := by
      simp only [detect]; rw [if_pos h1]
    intro hm; rw [hd] at hm; simp at hm
  case neg =>
    by_cases h2 : (checkTfidfSimilarity db code).score > threshold
    · have hd : detect db code threshold =
          { similarity_score := (checkTfidfSimilarity db code).score,
            matchList := (checkTfidfSimilarity db code).matchList,
            method := "tfidf" } := by
        simp only [detect]; rw [if_neg h1, if_pos h2]
      intro hm; rw [hd] at hm; simp at hm
    · have hd : detect db code threshold =
          { similarity_score := ((checkStructureSimilarity db code).score : ℝ),
            matchList := (checkStructureSimilarity db code).matchList.map qMatchToR,
            method := "structure" } := by
        simp only [detect]; rw [if_neg h1, if_neg h2]
      exact fun _ => ⟨h1, h2, by rw [hd]⟩
  case pos =>
    intro hdb; subst hdb
    have hd : detect [] code threshold =
        { similarity_score := ((checkAstSimilarity [] code).score : ℝ),
          matchList := (checkAstSimilarity [] code).matchList.map qMatchToR,
          method := "ast" } := by
      simp only [detect]; rw [if_pos h1]
    rw [hd]
    simp [(checkAstSimilarity_nil code).1, (checkAstSimilarity_nil code).2]
  case neg =>
    intro hdb; subst hdb
    by_cases h2 : (checkTfidfSimilarity [] code).score > threshold
    · have hd : detect [] code threshold =
          { similarity_score := (checkTfidfSimilarity [] code).score,
            matchList := (checkTfidfSimilarity [] code).matchList,
            method := "tfidf" } := by
        simp only [detect]; rw [if_neg h1, if_pos h2]
      rw [hd, checkTfidfSimilarity_nil]
      exact ⟨rfl, rfl⟩
    · have hd : detect [] code threshold =
          { similarity_score := ((checkStructureSimilarity [] code).score : ℝ),
            matchList := (checkStructureSimilarity [] code).matchList.map qMatchToR,
            method := "structure" } := by
        simp only [detect]; rw [if_neg h1, if_neg h2]
      rw [hd]
      simp [(checkStructureSimilarity_nil code).1, (checkStructureSimilarity_nil code).2]

/-! ## C6 counterexample: a parse-failure query against a nonempty corpus -/

/-- A hypothetical corpus entry for the source text `foo`. -/
def solFoo : Solution :=
  { code := "foo", source := "licensed", ast_hash := "h0",
    features := emptyFeatures, timestamp := "t0" }

/-- The query `foo (((`: a syntax error for `ast.parse`, but lexically
identical to `foo` for the word tokenizer. -/
def srcBadParen : PySource := ⟨"foo (((", none⟩

/-- Both documents reduce to the single feature `foo` with weight 1, so the
cosine of the query with the corpus entry is exactly 1. -/
theorem tfidf_foo_cosine :
    tfidfCosine ["foo", "foo ((("] "foo (((" "foo" = 1 := by
  have hvocab : vocabulary ["foo", "foo ((("] = ["foo"] := by decide
  have hdot : ∀ d1 d2 : String, termCount "foo" d1 = 1 → termCount "foo" d2 = 1 →
      tfidfDot ["foo", "foo ((("] d1 d2 = 1 := by
    intro d1 d2 h1 h2
    unfold tfidfDot tfidfWeight idf
    rw [hvocab]
    have hdf : docFreq ["foo", "foo ((("] "foo" = 2 := by decide
    simp only [List.map_cons, List.map_nil, List.sum_cons, List.sum_nil,
      List.length_cons, List.length_nil]
    rw [hdf, h1, h2]
    norm_num [Real.log_one]
  have h1 : tfidfDot ["foo", "foo ((("] "foo (((" "foo (((" = 1 :=
    hdot _ _ (by decide) (by decide)
  have h2 : tfidfDot ["foo", "foo ((("] "foo" "foo" = 1 :=
    hdot _ _ (by decide) (by decide)
  have h3 : tfidfDot ["foo", "foo ((("] "foo (((" "foo" = 1 :=
    hdot _ _ (by decide) (by decide)
  unfold tfidfCosine
  rw [h1, h2, h3]
  norm_num

theorem checkTfidf_foo :
    checkTfidfSimilarity [solFoo] srcBadParen =
      { score := 1,
        matchList := [{ source := "licensed", similarity := 1,
                        method := "tfidf" }] } := by
  classical
  have hne : ([solFoo] : List Solution) ≠ [] := by simp
  have hvne : vocabulary (List.map Solution.code [solFoo] ++ [srcBadParen.text]) ≠ [] := by
    decide
  simp only [checkTfidfSimilarity]
  rw [if_neg hne, if_neg hvne]
  have hdocs : List.map Solution.code [solFoo] ++ [srcBadParen.text] =
      ["foo", "foo ((("] := rfl
  have htext : srcBadParen.text = "foo (((" := rfl
  have hcode : solFoo.code = "foo" := rfl
  have hsrc : solFoo.source = "licensed" := rfl
  simp only [hdocs, List.map_cons, List.map_nil, List.filter_cons, List.filter_nil,
    htext, hcode, hsrc, tfidf_foo_cosine]
  norm_num [pyMaxR, tfidf_foo_cosine, hcode, hsrc]

/-- C6 (counterexample): against the one-entry corpus for `foo`, the
unparseable query `foo (((` makes `detect` return the lexical method's report
with score 1 - the claim's "on a parse failure the returned score is 0" is
false, because the lexical method never parses the query. -/
theorem C6_parse_failure_can_score_one :
    srcBadParen.parsed = none ∧
    (detect [solFoo] srcBadParen 0.8).similarity_score = 1 ∧
    (detect [solFoo] srcBadParen 0.8).method = "tfidf" := by
  classical
  have hast : (checkAstSimilarity [solFoo] srcBadParen).score = 0 :=
    checkAstSimilarity_parse_fail _ _ rfl
  have h1 : ¬(((checkAstSimilarity [solFoo] srcBadParen).score : ℝ) > 0.8) := by
    rw [hast]; norm_num
  have hd : detect [solFoo] srcBadParen 0.8 =
      { similarity_score := (checkTfidfSimilarity [solFoo] srcBadParen).score,
        matchList := (checkTfidfSimilarity [solFoo] srcBadParen).matchList,
        method := "tfidf" } := by
    simp only [detect]
    rw [if_neg h1, if_pos (by rw [checkTfidf_foo]; norm_num)]
  rw [hd, checkTfidf_foo]
  exact ⟨rfl, rfl, rfl⟩

theorem C6_detect_priority_and_fallback_witness :
    (detect [] srcBadParen 0.8).similarity_score = 0 ∧
    (detect [] srcBadParen 0.8).matchList = [] ∧
    (checkAstSimilarity [] srcBadParen).score = 0 ∧
    (checkStructureSimilarity [] srcBadParen).score = 0 :=
  ⟨((C6_detect_priority_and_fallback [] srcBadParen 0.8).2.2.2.1 rfl).1,
   ((C6_detect_priority_and_fallback [] srcBadParen 0.8).2.2.2.1 rfl).2,
   ((C6_detect_priority_and_fallback [] srcBadParen 0.8).2.2.2.2 rfl).1,
   ((C6_detect_priority_and_fallback [] srcBadParen 0.8).2.2.2.2 rfl).2⟩

/-! ## ComplexityAgent (src/agents/complexity.py)

`LoopComplexityVisitor` (complexity.py:191-242) tracks `loop_depth`
(incremented on entering a `For` or `While`, decremented on exit) and
`max_depth` (the maximum `loop_depth` observed at a loop entry);
`get_complexity` maps `max_depth` to a Big-O string and explanation.  The
quadratic branch's string literal in the source is the UTF-8 mojibake
`O(n\u00C2\u00B2)` (bytes C3 82 C2 B2), not `O(n\u00B2)` (bytes C2 B2). -/

structure TimeComplexity where
  big_o : String
  explanation : String
  deriving DecidableEq, Repr

mutual

def maxDepthStmt (depth : Nat) : PyStmt → Nat
  | .forS _ _ body _ => max (depth + 1) (maxDepthStmts (depth + 1) body)
  | .whileS _ body _ => max (depth + 1) (maxDepthStmts (depth + 1) body)
  | .functionDef _ _ body _ _ => maxDepthStmts depth body
  | .classDef _ body _ => maxDepthStmts depth body
  | .ifS _ b o => max (maxDepthStmts depth b) (maxDepthStmts depth o)
  | .assign _ _ _ => 0
  | .exprS _ => 0
  | .importS _ => 0
  | .importFrom _ => 0
  | .ret _ => 0

def maxDepthStmts (depth : Nat) : List PyStmt → Nat
  | [] => 0
  | s :: rest => max (maxDepthStmt depth s) (maxDepthStmts depth rest)

end

/-- The visitor's final `max_depth` after visiting the module. -/
def maxLoopDepth (m : PyModule) : Nat := maxDepthStmts 0 m.body

/-- `LoopComplexityVisitor.get_complexity` (complexity.py:223-242); the
`hotspots` key (the accumulated nesting-factor strings) is not modelled, no
claim mentions it. -/
def loopGetComplexity (max_depth : Nat) : TimeComplexity :=
  if max_depth = 0 then ⟨"O(1)", "No loops detected - constant time"⟩
  else if max_depth = 1 then ⟨"O(n)", "Single loop - linear time"⟩
  else if max_depth = 2 then
    ⟨"O(n\u00C2\u00B2)", "Nested loops detected - quadratic time"⟩
  else
    ⟨"O(n^" ++ toString max_depth ++ ")",
     "Deeply nested loops (depth " ++ toString max_depth ++ ") - polynomial time"⟩

/-! ### Cyclomatic hotspots (complexity.py:79-89)

`radon.complexity.cc_visit` is a third-party collaborator: it returns one
block per function/class with its cyclomatic complexity (decision points
plus 1), listed in visit (declaration) order - radon does not sort and
`_analyze_python` never calls radon's `sorted_results`.  The embedding takes
radon's block list as input; the repository code is the comprehension
`[... for c in cc if c.complexity > 5]`, which filters preserving order. -/

structure CCBlock where
  name : String
  complexity : Nat
  lineno : Nat
  deriving DecidableEq, Repr

structure Hotspot where
  function : String
  complexity : Nat
  line : Nat
  deriving DecidableEq, Repr

def mkHotspot (c : CCBlock) : Hotspot := ⟨c.name, c.complexity, c.lineno⟩

def hotspotsOf (cc : List CCBlock) : List Hotspot :=
  (cc.filter (fun c => c.complexity > 5)).map mkHotspot

/-- `analysis["cyclomatic"] = max(c.complexity for c in cc)` when `cc` is
nonempty, 0 otherwise. -/
def cyclomaticOf (cc : List CCBlock) : Nat :=
  (cc.map CCBlock.complexity).foldr max 0

/-- The ordering property the claim asserts of the hotspot list. -/
def hotspotsSortedDesc (l : List Hotspot) : Prop :=
  l.Chain' (fun a b => b.complexity ≤ a.complexity)

/-! ## SummarizerAgent scoring (src/agents/summarizer.py)

`_calculate_overall_score` (summarizer.py:94-111) derives one sub-score per
report dict (with Python-truthiness defaults), multiplies by the fixed
weights dict and returns `int(total)` - truncation toward zero, not
`round`. -/

/-- Python's `pattern in text` on strings: substring containment. -/
def listPrefixB : List Char → List Char → Bool
  | [], _ => true
  | _ :: _, [] => false
  | a :: as, b :: bs => a = b && listPrefixB as bs

def listSubB (p : List Char) : List Char → Bool
  | [] => p.isEmpty
  | c :: rest => listPrefixB p (c :: rest) || listSubB p rest

def pyIn (p t : String) : Bool := listSubB p.toList t.toList

/-- The correctness report keys read by the aggregator; `none` models an
absent key. -/
structure CorrectnessReport where
  tests_passed : Option Nat
  total_tests : Option Nat

/-- `reports[1].get("time_complexity", {}).get("big_o", "O(n)")`. -/
structure ComplexityReportS where
  big_o : Option String

/-- The `values()` of `reports[2].get("scores", {})`; an absent or an empty
dict (both falsy) collapse to `[]`. -/
structure ReadabilityReportS where
  scores : List Rat

/-- `len(reports[3].get("priority_cases", []))`; an absent or an empty list
(both falsy) collapse to count 0. -/
structure EdgeCasesReport where
  priority_cases : Nat

structure FourReports where
  correctness : CorrectnessReport
  complexity : ComplexityReportS
  readability : ReadabilityReportS
  edge_cases : EdgeCasesReport

/-- Python truthiness of `reports[0].get("total_tests")`. -/
def truthyNat : Option Nat → Bool
  | some n => n ≠ 0
  | none => false

def correctnessScore (r : CorrectnessReport) : Rat :=
  if truthyNat r.total_tests then
    (r.tests_passed.getD 0 : Rat) / ((max (r.total_tests.getD 1) 1 : Nat) : Rat) * 100
  else 70

/-- `_score_complexity`'s lookup table (summarizer.py:118-126), in dict
insertion order; note the quadratic key here is the well-formed
`O(n\u00B2)`. -/
def complexityScoreTable : List (String × Rat) :=
  [("O(1)", 100), ("O(log n)", 90), ("O(n)", 80), ("O(n log n)", 70),
   ("O(n\u00B2)", 50), ("O(n\u00B3)", 30), ("O(2^n)", 10)]

/-- `for pattern, score in complexity_scores.items(): if pattern in
time_complexity: return score` - the first key that is a substring of the
report's Big-O string wins; default 60. -/
def scoreLoop : List (String × Rat) → String → Rat
  | [], _ => 60
  | (p, sc) :: rest, t => if pyIn p t then sc else scoreLoop rest t

def pyScoreComplexity (r : ComplexityReportS) : Rat :=
  scoreLoop complexityScoreTable (r.big_o.getD "O(n)")

def readabilityScore (r : ReadabilityReportS) : Rat :=
  if r.scores ≠ [] then r.scores.sum / 4 * 10 else 70

def robustnessScore (r : EdgeCasesReport) : Rat :=
  if r.priority_cases ≠ 0 then (r.priority_cases : Rat) / 10 * 100 else 70

/-- The fixed weights dict (summarizer.py:96-101), in insertion order. -/
def overallWeights : List (String × Rat) :=
  [("correctness", 0.35), ("complexity", 0.25),
   ("readability", 0.20), ("robustness", 0.20)]

def subScore (rs : FourReports) : String → Rat
  | "correctness" => correctnessScore rs.correctness
  | "complexity" => pyScoreComplexity rs.complexity
  | "readability" => readabilityScore rs.readability
  | "robustness" => robustnessScore rs.edge_cases
  | _ => 0

/-- `total = sum(scores[key] * weights[key] for key in weights)`. -/
def overallTotal (rs : FourReports) : Rat :=
  (overallWeights.map (fun kw => subScore rs kw.1 * kw.2)).sum

/-- Python `int()`: truncation toward zero. -/
def pyInt (q : Rat) : Int := if 0 ≤ q then ⌊q⌋ else ⌈q⌉

/-- `return int(total)`. -/
def calculateOverallScore (rs : FourReports) : Int := pyInt (overallTotal rs)

/-! ## C4: the overall score -/

/-- Four reports realizing the claim's sub-scores 100 / 80 / 70 / 70:
10 of 10 tests passed, time class `O(n)`, no scores dict, no priority
cases. -/
def c4Reports : FourReports :=
  { correctness := ⟨some 10, some 10⟩,
    complexity := ⟨some "O(n)"⟩,
    readability := ⟨[]⟩,
    edge_cases := ⟨0⟩ }

theorem c4_correctness_100 : correctnessScore c4Reports.correctness = 100 := by
  simp [correctnessScore, c4Reports, truthyNat]

theorem c4_complexity_80 : pyScoreComplexity c4Reports.complexity = 80 := by
  have h1 : pyIn "O(1)" "O(n)" = false := by decide
  have h2 : pyIn "O(log n)" "O(n)" = false := by decide
  have h3 : pyIn "O(n)" "O(n)" = true := by decide
  simp [pyScoreComplexity, c4Reports, complexityScoreTable, scoreLoop, h1, h2, h3]

theorem c4_readability_70 : readabilityScore c4Reports.readability = 70 := by
  simp [readabilityScore, c4Reports]

theorem c4_robustness_70 : robustnessScore c4Reports.edge_cases = 70 := by
  simp [robustnessScore, c4Reports]

theorem c4_total_83 : overallTotal c4Reports = 83 := by
  simp [overallTotal, overallWeights, subScore, c4_correctness_100,
    c4_complexity_80, c4_readability_70, c4_robustness_70]
  norm_num

/-- C4 (counterexample): on the claim's own sub-scores 100/80/70/70 the
overall score is 83, not 84: the weighted sum is exactly
100*0.35 + 80*0.25 + 70*0.20 + 70*0.20 = 83 (the claim's arithmetic
`round(...) = 84` is itself wrong), and the code truncates with `int`. -/
theorem C4_overall_score_84_refuted :
    correctnessScore c4Reports.correctness = 100 ∧
    pyScoreComplexity c4Reports.complexity = 80 ∧
    readabilityScore c4Reports.readability = 70 ∧
    robustnessScore c4Reports.edge_cases = 70 ∧
    calculateOverallScore c4Reports = 83 ∧
    calculateOverallScore c4Reports ≠ 84 := by
  have hs : calculateOverallScore c4Reports = 83 := by
    rw [calculateOverallScore, c4_total_83, pyInt]
    norm_num
  exact ⟨c4_correctness_100, c4_complexity_80, c4_readability_70,
    c4_robustness_70, hs, by rw [hs]; decide⟩

theorem overallTotal_explicit (rs : FourReports) :
    overallTotal rs =
      correctnessScore rs.correctness * 0.35 +
      pyScoreComplexity rs.complexity * 0.25 +
      readabilityScore rs.readability * 0.20 +
      robustnessScore rs.edge_cases * 0.20 := by
  simp [overallTotal, overallWeights, subScore]
  ring

/-- Four reports whose weighted sum is 85.6: truncation gives 85 where
rounding would give 86, separating `int` from `round`:
9/10 tests (90), `O(1)` (100), scores summing to 30.2 (75.5), 7 priority
cases (70). -/
def c4ReportsFrac : FourReports :=
  { correctness := ⟨some 9, some 10⟩,
    complexity := ⟨some "O(1)"⟩,
    readability := ⟨[(30.2 : Rat)]⟩,
    edge_cases := ⟨7⟩ }

theorem c4frac_total : overallTotal c4ReportsFrac = 85.6 := by
  have h1 : pyIn "O(1)" "O(1)" = true := by decide
  rw [overallTotal_explicit]
  simp [correctnessScore, pyScoreComplexity, readabilityScore, robustnessScore,
    c4ReportsFrac, truthyNat, complexityScoreTable, scoreLoop, h1]
  norm_num

/-- C4 (amended): the overall score is the truncation (Python `int`) of the
weighted sum of the four derived sub-scores under the fixed weights
{correctness: 0.35, complexity: 0.25, readability: 0.20, robustness: 0.20};
for sub-scores {100, 80, 70, 70} it equals int(83.0) = 83; and the operation
is truncation, not rounding: a weighted sum of 85.6 yields 85. -/
theorem C4_overall_score_is_truncated_weighted_sum (rs : FourReports) :
    calculateOverallScore rs = pyInt
      (correctnessScore rs.correctness * 0.35 +
       pyScoreComplexity rs.complexity * 0.25 +
       readabilityScore rs.readability * 0.20 +
       robustnessScore rs.edge_cases * 0.20) ∧
    calculateOverallScore c4Reports = 83 ∧
    overallTotal c4ReportsFrac = 85.6 ∧
    calculateOverallScore c4ReportsFrac = 85 := by
  refine ⟨?_, ?_, c4frac_total, ?_⟩
  · rw [calculateOverallScore, overallTotal_explicit]
  · rw [calculateOverallScore, c4_total_83, pyInt]
    norm_num
  · rw [calculateOverallScore, c4frac_total, pyInt]
    norm_num

/-! ## C5: the depth-to-class mapping -/

/-- `for i in xs: for j in ys: f(j)` - loop-nesting depth 2. -/
def nestedLoops2 : PyModule :=
  ⟨[.forS (.name "i" .store) (.name "xs" .load)
      [.forS (.name "j" .store) (.name "ys" .load)
        [.exprS (.call (.name "f" .load) (.name "j" .load))] 2] 1]⟩

/-- C5 (code bug): at depth 2 the analyzer's Big-O string is the mojibake
`O(n\u00C2\u00B2)` (source bytes C3 82 C2 B2), not `O(n\u00B2)`, even though
the same branch's explanation says "quadratic time" and the summarizer's own
score table keys the well-formed `O(n\u00B2)` - so the complexity sub-score
of a depth-2 report falls through to the unrecognized default 60 instead of
the quadratic 50.  The mapping at depths 0, 1 and 3 is as the claim
states. -/
theorem C5_depth2_big_o_is_mojibake :
    maxLoopDepth nestedLoops2 = 2 ∧
    (loopGetComplexity (maxLoopDepth nestedLoops2)).big_o = "O(n\u00C2\u00B2)" ∧
    (loopGetComplexity (maxLoopDepth nestedLoops2)).explanation =
      "Nested loops detected - quadratic time" ∧
    "O(n\u00C2\u00B2)" ≠ "O(n\u00B2)" ∧
    pyScoreComplexity ⟨some "O(n\u00C2\u00B2)"⟩ = 60 ∧
    pyScoreComplexity ⟨some "O(n\u00B2)"⟩ = 50 ∧
    loopGetComplexity 0 = ⟨"O(1)", "No loops detected - constant time"⟩ ∧
    loopGetComplexity 1 = ⟨"O(n)", "Single loop - linear time"⟩ ∧
    (loopGetComplexity 3).big_o = "O(n^3)" := by
  refine ⟨by decide, by decide, by decide, by decide, ?_, ?_, by decide,
    by decide, by decide⟩
  · have g1 : pyIn "O(1)" "O(n\u00C2\u00B2)" = false := by decide
    have g2 : pyIn "O(log n)" "O(n\u00C2\u00B2)" = false := by decide
    have g3 : pyIn "O(n)" "O(n\u00C2\u00B2)" = false := by decide
    have g4 : pyIn "O(n log n)" "O(n\u00C2\u00B2)" = false := by decide
    have g5 : pyIn "O(n\u00B2)" "O(n\u00C2\u00B2)" = false := by decide
    have g6 : pyIn "O(n\u00B3)" "O(n\u00C2\u00B2)" = false := by decide
    have g7 : pyIn "O(2^n)" "O(n\u00C2\u00B2)" = false := by decide
    simp [pyScoreComplexity, complexityScoreTable, scoreLoop,
      g1, g2, g3, g4, g5, g6, g7]
  · have h1 : pyIn "O(1)" "O(n\u00B2)" = false := by decide
    have h2 : pyIn "O(log n)" "O(n\u00B2)" = false := by decide
    have h3 : pyIn "O(n)" "O(n\u00B2)" = false := by decide
    have h4 : pyIn "O(n log n)" "O(n\u00B2)" = false := by decide
    have h5 : pyIn "O(n\u00B2)" "O(n\u00B2)" = true := by decide
    simp [pyScoreComplexity, complexityScoreTable, scoreLoop, h1, h2, h3, h4, h5]

/-! ## C10: the hotspot list -/

/-- radon blocks for a module declaring `f` (complexity 6) before `g`
(complexity 8). -/
def radonBlocksFG : List CCBlock := [⟨"f", 6, 1⟩, ⟨"g", 8, 9⟩]

/-- C10 (counterexample): both functions exceed the threshold 5, so both are
flagged, but the list keeps radon's declaration order - complexity 6 before
8 - so it is not sorted by complexity descending. -/
theorem C10_hotspots_not_sorted_desc :
    hotspotsOf radonBlocksFG = [⟨"f", 6, 1⟩, ⟨"g", 8, 9⟩] ∧
    ¬ hotspotsSortedDesc (hotspotsOf radonBlocksFG) := by
  have h : hotspotsOf radonBlocksFG = [⟨"f", 6, 1⟩, ⟨"g", 8, 9⟩] := by decide
  refine ⟨h, ?_⟩
  rw [hotspotsSortedDesc, h]
  simp [List.chain'_cons]

/-- C10 (amended): every function whose cyclomatic complexity strictly
exceeds 5 is flagged as a hotspot and every hotspot comes from such a
function, and the hotspot list preserves radon's block order (it is a
sublist of the blocks' image, not a sorted copy). -/
theorem C10_hotspots_characterization (cc : List CCBlock) :
    (∀ c ∈ cc, 5 < c.complexity → mkHotspot c ∈ hotspotsOf cc) ∧
    (∀ h ∈ hotspotsOf cc, ∃ c ∈ cc, 5 < c.complexity ∧ h = mkHotspot c) ∧
    (hotspotsOf cc).Sublist (cc.map mkHotspot) := by
  refine ⟨fun c hc hgt => ?_, fun h hh => ?_, ?_⟩
  · exact List.mem_map_of_mem _ (List.mem_filter.mpr ⟨hc, by simpa using hgt⟩)
  · rcases List.mem_map.mp hh with ⟨c, hc, rfl⟩
    rcases List.mem_filter.mp hc with ⟨hcc, hgt⟩
    exact ⟨c, hcc, by simpa using hgt, rfl⟩
  · exact (List.filter_sublist cc).map mkHotspot

theorem C10_hotspots_characterization_witness :
    mkHotspot ⟨"h", 7, 2⟩ ∈ hotspotsOf [⟨"h", 7, 2⟩] :=
  (C10_hotspots_characterization [⟨"h", 7, 2⟩]).1 ⟨"h", 7, 2⟩
    (List.mem_singleton.mpr rfl) (by decide)

/-! ## ReviewGraph (src/agents/graph.py)

The compiled LangGraph workflow is the fixed chain
`correctness -> delay -> complexity -> delay -> readability -> delay ->
edge_cases -> [plagiarism_check ? delay -> plagiarism : skip] -> delay ->
summarizer` (graph.py:48-94).  Each `_run_X` node sets
`state["current_agent"]`, calls its agent inside `try`, stores the result
under the stage's result key on success, and appends
`"<StageLabel>: <message>"` to `state["errors"]` on an exception
(graph.py:103-206).  The delay nodes only sleep and return the state
unchanged.  `run` stamps `start_time`, resets `errors` to `[]`, invokes the
graph, then stamps `end_time` and `duration` (graph.py:219-238); since every
node catches its own exceptions, the graph invocation itself cannot raise.

Agent reports are opaque here (`\u03c1`); each agent is a function that either
returns a report or raises (`Except String`).  The embedding adds one
instrumentation field, `agentLog`: the history of assignments to
`current_agent`, recording which stage nodes executed and in what order. -/

inductive Stage where
  | correctness
  | complexity
  | readability
  | edgeCases
  | plagiarism
  | summarizer
  deriving DecidableEq, Repr

/-- The error-entry label each `_run_X` uses in `f"...: {str(e)}"`. -/
def stageLabel : Stage → String
  | .correctness => "Correctness"
  | .complexity => "Complexity"
  | .readability => "Readability"
  | .edgeCases => "Edge Cases"
  | .plagiarism => "Plagiarism"
  | .summarizer => "Summarizer"

/-- The `state["current_agent"]` value each `_run_X` sets. -/
def stageName : Stage → String
  | .correctness => "correctness"
  | .complexity => "complexity"
  | .readability => "readability"
  | .edgeCases => "edge_cases"
  | .plagiarism => "plagiarism"
  | .summarizer => "summarizer"

/-- The `ReviewState` TypedDict (graph.py:10-32), with `Option` for result
keys that may be absent, plus the `agentLog` instrumentation field. -/
structure ReviewState (ρ : Type) where
  code : String
  language : String
  user_id : String
  plagiarism_check : Bool
  correctness_result : Option ρ
  complexity_result : Option ρ
  readability_result : Option ρ
  edge_cases_result : Option ρ
  plagiarism_result : Option ρ
  summarizer_result : Option ρ
  current_agent : String
  agentLog : List String
  errors : List String
  start_time : Option Rat
  end_time : Option Rat
  duration : Option Rat

/-- The agents dict: one fallible callable per stage, with the argument
lists the `_run_X` nodes pass (summarizer receives the four reports via
`state.get(..., {})`, modelled by the `Option`s). -/
structure Agents (ρ : Type) where
  correctness : String → String → Except String ρ
  complexity : String → String → Except String ρ
  readability : String → String → String → Except String ρ
  edge_cases : String → String → Except String ρ
  plagiarism : String → Except String ρ
  summarizer : String → String → Option ρ → Option ρ → Option ρ → Option ρ →
    String → Except String ρ

/-- The call each `_run_X` makes, with its actual arguments from the state. -/
def invocation {ρ : Type} (ags : Agents ρ) (s : Stage) (st : ReviewState ρ) :
    Except String ρ :=
  match s with
  | .correctness => ags.correctness st.code st.language
  | .complexity => ags.complexity st.code st.language
  | .readability => ags.readability st.code st.language st.user_id
  | .edgeCases => ags.edge_cases st.code st.language
  | .plagiarism => ags.plagiarism st.code
  | .summarizer => ags.summarizer st.code st.language st.correctness_result
      st.complexity_result st.readability_result st.edge_cases_result st.user_id

/-- `state["<stage>_result"] = result`. -/
def setResult {ρ : Type} (s : Stage) (r : ρ) (st : ReviewState ρ) : ReviewState ρ :=
  match s with
  | .correctness => { st with correctness_result := some r }
  | .complexity => { st with complexity_result := some r }
  | .readability => { st with readability_result := some r }
  | .edgeCases => { st with edge_cases_result := some r }
  | .plagiarism => { st with plagiarism_result := some r }
  | .summarizer => { st with summarizer_result := some r }

/-- The stage's result key, read back. -/
def getResult {ρ : Type} (s : Stage) (st : ReviewState ρ) : Option ρ :=
  match s with
  | .correctness => st.correctness_result
  | .complexity => st.complexity_result
  | .readability => st.readability_result
  | .edgeCases => st.edge_cases_result
  | .plagiarism => st.plagiarism_result
  | .summarizer => st.summarizer_result

/-- One `_run_X` node: set `current_agent` (logged), call the agent, store
the result on success, append `"<Label>: <msg>"` to the error list on an
exception. -/
def runStage {ρ : Type} (ags : Agents ρ) (s : Stage) (st : ReviewState ρ) :
    ReviewState ρ :=
  let st' := { st with current_agent := stageName s,
                       agentLog := st.agentLog ++ [stageName s] }
  match invocation ags s st' with
  | .ok r => setResult s r st'
  | .error e => { st' with errors := st'.errors ++ [stageLabel s ++ ": " ++ e] }

/-- `_delay_2_seconds`: sleeps and returns the state unchanged. -/
def delayNode {ρ : Type} (st : ReviewState ρ) : ReviewState ρ := st

/-- The error-list contribution of one stage node. -/
def errContrib {ρ : Type} (ags : Agents ρ) (s : Stage) (st : ReviewState ρ) :
    List String :=
  match invocation ags s st with
  | .ok _ => []
  | .error e => [stageLabel s ++ ": " ++ e]

/-- The compiled graph, node by node (delay nodes interposed as wired in
`_build_graph`; the conditional edge after `edge_cases` evaluates
`_should_check_plagiarism`, i.e. `state.get("plagiarism_check", False)`). -/
def afterCorrectness {ρ : Type} (ags : Agents ρ) (st : ReviewState ρ) : ReviewState ρ :=
  delayNode (runStage ags .correctness st)

def afterComplexity {ρ : Type} (ags : Agents ρ) (st : ReviewState ρ) : ReviewState ρ :=
  delayNode (runStage ags .complexity (afterCorrectness ags st))

def afterReadability {ρ : Type} (ags : Agents ρ) (st : ReviewState ρ) : ReviewState ρ :=
  delayNode (runStage ags .readability (afterComplexity ags st))

def afterEdgeCases {ρ : Type} (ags : Agents ρ) (st : ReviewState ρ) : ReviewState ρ :=
  runStage ags .edgeCases (afterReadability ags st)

def afterBranch {ρ : Type} (ags : Agents ρ) (st : ReviewState ρ) : ReviewState ρ :=
  if (afterEdgeCases ags st).plagiarism_check then
    runStage ags .plagiarism (delayNode (afterEdgeCases ags st))
  else afterEdgeCases ags st

def runPipeline {ρ : Type} (ags : Agents ρ) (st : ReviewState ρ) : ReviewState ρ :=
  runStage ags .summarizer (delayNode (afterBranch ags st))

/-- The state each stage node receives (so also the state its agent call
reads its arguments from). -/
def stateAtInvocation {ρ : Type} (ags : Agents ρ) (st : ReviewState ρ) :
    Stage → ReviewState ρ
  | .correctness => st
  | .complexity => afterCorrectness ags st
  | .readability => afterComplexity ags st
  | .edgeCases => afterReadability ags st
  | .plagiarism => delayNode (afterEdgeCases ags st)
  | .summarizer => delayNode (afterBranch ags st)

/-- `ReviewGraph.run`: stamp `start_time`, reset `errors`, run the graph,
stamp `end_time` and `duration`.  The `except` branch of `run` is
unreachable: every node catches its own exceptions. -/
def initState {ρ : Type} (st0 : ReviewState ρ) (t0 : Rat) : ReviewState ρ :=
  { st0 with start_time := some t0, errors := [] }

def runReview {ρ : Type} (ags : Agents ρ) (st0 : ReviewState ρ) (t0 t1 : Rat) :
    ReviewState ρ :=
  let res := runPipeline ags (initState st0 t0)
  { res with end_time := some t1, duration := some (t1 - t0) }

/-! ### Node-level lemmas -/

theorem invocation_set_log {ρ : Type} (ags : Agents ρ) (s : Stage)
    (st : ReviewState ρ) (c : String) (l : List String) :
    invocation ags s { st with current_agent := c, agentLog := l } =
      invocation ags s st := by
  cases s <;> rfl

@[simp] theorem delayNode_eq {ρ : Type} (st : ReviewState ρ) :
    delayNode st = st := rfl

@[simp] theorem runStage_code {ρ : Type} (ags : Agents ρ) (s : Stage)
    (st : ReviewState ρ) : (runStage ags s st).code = st.code := by
  simp only [runStage]
  rw [invocation_set_log]
  cases invocation ags s st with
  | error e => rfl
  | ok r => cases s <;> rfl

@[simp] theorem runStage_language {ρ : Type} (ags : Agents ρ) (s : Stage)
    (st : ReviewState ρ) : (runStage ags s st).language = st.language := by
  simp only [runStage]
  rw [invocation_set_log]
  cases invocation ags s st with
  | error e => rfl
  | ok r => cases s <;> rfl

@[simp] theorem runStage_user_id {ρ : Type} (ags : Agents ρ) (s : Stage)
    (st : ReviewState ρ) : (runStage ags s st).user_id = st.user_id := by
  simp only [runStage]
  rw [invocation_set_log]
  cases invocation ags s st with
  | error e => rfl
  | ok r => cases s <;> rfl

@[simp] theorem runStage_plagiarism_check {ρ : Type} (ags : Agents ρ) (s : Stage)
    (st : ReviewState ρ) :
    (runStage ags s st).plagiarism_check = st.plagiarism_check := by
  simp only [runStage]
  rw [invocation_set_log]
  cases invocation ags s st with
  | error e => rfl
  | ok r => cases s <;> rfl

@[simp] theorem runStage_start_time {ρ : Type} (ags : Agents ρ) (s : Stage)
    (st : ReviewState ρ) : (runStage ags s st).start_time = st.start_time := by
  simp only [runStage]
  rw [invocation_set_log]
  cases invocation ags s st with
  | error e => rfl
  | ok r => cases s <;> rfl

@[simp] theorem runStage_end_time {ρ : Type} (ags : Agents ρ) (s : Stage)
    (st : ReviewState ρ) : (runStage ags s st).end_time = st.end_time := by
  simp only [runStage]
  rw [invocation_set_log]
  cases invocation ags s st with
  | error e => rfl
  | ok r => cases s <;> rfl

@[simp] theorem runStage_agentLog {ρ : Type} (ags : Agents ρ) (s : Stage)
    (st : ReviewState ρ) :
    (runStage ags s st).agentLog = st.agentLog ++ [stageName s] := by
  simp only [runStage]
  rw [invocation_set_log]
  cases invocation ags s st with
  | error e => rfl
  | ok r => cases s <;> rfl

@[simp] theorem runStage_errors {ρ : Type} (ags : Agents ρ) (s : Stage)
    (st : ReviewState ρ) :
    (runStage ags s st).errors = st.errors ++ errContrib ags s st := by
  simp only [runStage, errContrib]
  rw [invocation_set_log]
  cases invocation ags s st with
  | error e => rfl
  | ok r => cases s <;> simp [setResult]

theorem runStage_getResult_ne {ρ : Type} (ags : Agents ρ) {s' s : Stage}
    (st : ReviewState ρ) (h : s' ≠ s) :
    getResult s' (runStage ags s st) = getResult s' st := by
  simp only [runStage]
  rw [invocation_set_log]
  cases invocation ags s st with
  | error e => cases s' <;> rfl
  | ok r => cases s <;> cases s' <;> simp_all [getResult, setResult]

theorem runStage_getResult_err {ρ : Type} (ags : Agents ρ) {s : Stage}
    (st : ReviewState ρ) (s' : Stage) {msg : String}
    (hi : invocation ags s st = .error msg) :
    getResult s' (runStage ags s st) = getResult s' st := by
  simp only [runStage]
  rw [invocation_set_log, hi]
  cases s' <;> rfl

/-- C9: with the similarity flag false, the Similarity stage never executes -
the execution log has no `plagiarism` entry and the plagiarism result key is
left untouched; with the flag true it executes exactly once, between
`edge_cases` and `summarizer`. -/
theorem C9_similarity_stage_conditional {ρ : Type} (ags : Agents ρ)
    (st0 : ReviewState ρ) (t0 t1 : Rat) (hlog : st0.agentLog = []) :
    (st0.plagiarism_check = false →
      (runReview ags st0 t0 t1).agentLog =
        ["correctness", "complexity", "readability", "edge_cases", "summarizer"] ∧
      "plagiarism" ∉ (runReview ags st0 t0 t1).agentLog ∧
      (runReview ags st0 t0 t1).plagiarism_result = st0.plagiarism_result) ∧
    (st0.plagiarism_check = true →
      (runReview ags st0 t0 t1).agentLog =
        ["correctness", "complexity", "readability", "edge_cases",
         "plagiarism", "summarizer"] ∧
      ((runReview ags st0 t0 t1).agentLog.count "plagiarism" = 1)) := by
  constructor
  · intro hflag
    have hpc : (afterEdgeCases ags (initState st0 t0)).plagiarism_check = false := by
      simp [afterEdgeCases, afterReadability, afterComplexity, afterCorrectness,
        initState, hflag]
    have hbr : afterBranch ags (initState st0 t0) =
        afterEdgeCases ags (initState st0 t0) := by
      unfold afterBranch
      rw [hpc]
      simp
    have hl : (runReview ags st0 t0 t1).agentLog =
        ["correctness", "complexity", "readability", "edge_cases", "summarizer"] := by
      have h2 : (runReview ags st0 t0 t1).agentLog =
          (afterBranch ags (initState st0 t0)).agentLog ++ ["summarizer"] := by
        simp [runReview, runPipeline, stageName]
      rw [h2, hbr]
      simp [afterEdgeCases, afterReadability, afterComplexity, afterCorrectness,
        initState, hlog, stageName]
    refine ⟨hl, ?_, ?_⟩
    · rw [hl]; simp
    · show getResult .plagiarism (runReview ags st0 t0 t1) = getResult .plagiarism st0
      have h1 : getResult Stage.plagiarism (runReview ags st0 t0 t1) =
          getResult Stage.plagiarism (runPipeline ags (initState st0 t0)) := rfl
      rw [h1]
      unfold runPipeline
      rw [runStage_getResult_ne ags _ (by simp), delayNode_eq, hbr]
      unfold afterEdgeCases afterReadability afterComplexity afterCorrectness
      rw [runStage_getResult_ne ags _ (by simp), delayNode_eq,
        runStage_getResult_ne ags _ (by simp), delayNode_eq,
        runStage_getResult_ne ags _ (by simp), delayNode_eq,
        runStage_getResult_ne ags _ (by simp)]
      rfl
  · intro hflag
    have hpc : (afterEdgeCases ags (initState st0 t0)).plagiarism_check = true := by
      simp [afterEdgeCases, afterReadability, afterComplexity, afterCorrectness,
        initState, hflag]
    have hbr : afterBranch ags (initState st0 t0) =
        runStage ags .plagiarism (afterEdgeCases ags (initState st0 t0)) := by
      unfold afterBranch
      rw [hpc]
      simp
    have hl : (runReview ags st0 t0 t1).agentLog =
        ["correctness", "complexity", "readability", "edge_cases",
         "plagiarism", "summarizer"] := by
      have h2 : (runReview ags st0 t0 t1).agentLog =
          (afterBranch ags (initState st0 t0)).agentLog ++ ["summarizer"] := by
        simp [runReview, runPipeline, stageName]
      rw [h2, hbr]
      simp [afterEdgeCases, afterReadability, afterComplexity, afterCorrectness,
        initState, hlog, stageName]
    exact ⟨hl, by rw [hl]; rfl⟩

/-! ### Error records per stage -/

/-- Recognize an error entry of stage `s`: the entry starts with
`"<Label>: "`. -/
def errIsFor (s : Stage) (e : String) : Bool :=
  listPrefixB (stageLabel s ++ ": ").toList e.toList

def expectedAgentLog (flag : Bool) : List String :=
  if flag then
    ["correctness", "complexity", "readability", "edge_cases",
     "plagiarism", "summarizer"]
  else ["correctness", "complexity", "readability", "edge_cases", "summarizer"]

theorem listPrefixB_self_append (l m : List Char) :
    listPrefixB l (l ++ m) = true := by
  induction l with
  | nil => rfl
  | cons a as ih => simp [listPrefixB, ih]

theorem listPrefixB_append_of_not {p q : List Char} (m : List Char)
    (h1 : listPrefixB p q = false) (h2 : listPrefixB q p = false) :
    listPrefixB p (q ++ m) = false := by
  induction p generalizing q with
  | nil => simp [listPrefixB] at h1
  | cons a as ih =>
      cases q with
      | nil => simp [listPrefixB] at h2
      | cons b bs =>
          simp only [List.cons_append, listPrefixB] at h1 h2 ⊢
          by_cases hab : a = b
          · subst hab
            simp at h1 h2 ⊢
            exact ih h1 h2
          · simp [hab]

/-- No stage's error label is a prefix of another's. -/
theorem stageLabelPre_distinct :
    ∀ s s' : Stage, s ≠ s' →
      listPrefixB (stageLabel s ++ ": ").toList
        (stageLabel s' ++ ": ").toList = false := by
  intro s s' h
  cases s <;> cases s' <;> first | exact absurd rfl h | decide

theorem errIsFor_self (s : Stage) (msg : String) :
    errIsFor s (stageLabel s ++ ": " ++ msg) = true := by
  unfold errIsFor
  have : (stageLabel s ++ ": " ++ msg).toList =
      (stageLabel s ++ ": ").toList ++ msg.toList := by
    simp [String.toList, String.data_append]
  rw [this]
  exact listPrefixB_self_append _ _

theorem errIsFor_other {s s' : Stage} (h : s ≠ s') (msg : String) :
    errIsFor s (stageLabel s' ++ ": " ++ msg) = false := by
  unfold errIsFor
  have hl : (stageLabel s' ++ ": " ++ msg).toList =
      (stageLabel s' ++ ": ").toList ++ msg.toList := by
    simp [String.toList, String.data_append]
  rw [hl]
  exact listPrefixB_append_of_not _ (stageLabelPre_distinct s s' h)
    (stageLabelPre_distinct s' s (Ne.symm h))

theorem countP_errContrib_self {ρ : Type} (ags : Agents ρ) (s : Stage)
    (st : ReviewState ρ) {msg : String}
    (h : invocation ags s st = .error msg) :
    (errContrib ags s st).countP (errIsFor s) = 1 := by
  unfold errContrib
  rw [h]
  simp [List.countP_cons, errIsFor_self]

theorem countP_errContrib_other {ρ : Type} (ags : Agents ρ) {s s' : Stage}
    (h : s ≠ s') (st : ReviewState ρ) :
    (errContrib ags s' st).countP (errIsFor s) = 0 := by
  unfold errContrib
  cases invocation ags s' st with
  | ok r => rfl
  | error e => simp [List.countP_cons, errIsFor_other h]

/-! ### Whole-run decomposition lemmas -/

theorem afterEdgeCases_plagiarism_check {ρ : Type} (ags : Agents ρ)
    (st0 : ReviewState ρ) (t0 : Rat) :
    (afterEdgeCases ags (initState st0 t0)).plagiarism_check =
      st0.plagiarism_check := by
  simp [afterEdgeCases, afterReadability, afterComplexity, afterCorrectness,
    initState]

/-- The final error list is the in-order concatenation of the per-stage
contributions (the conditional stage contributing only when routed). -/
theorem runReview_errors {ρ : Type} (ags : Agents ρ) (st0 : ReviewState ρ)
    (t0 t1 : Rat) :
    (runReview ags st0 t0 t1).errors =
      errContrib ags .correctness (stateAtInvocation ags (initState st0 t0) .correctness) ++
      errContrib ags .complexity (stateAtInvocation ags (initState st0 t0) .complexity) ++
      errContrib ags .readability (stateAtInvocation ags (initState st0 t0) .readability) ++
      errContrib ags .edgeCases (stateAtInvocation ags (initState st0 t0) .edgeCases) ++
      (if st0.plagiarism_check then
        errContrib ags .plagiarism (stateAtInvocation ags (initState st0 t0) .plagiarism)
       else []) ++
      errContrib ags .summarizer (stateAtInvocation ags (initState st0 t0) .summarizer) := by
  have hrr : (runReview ags st0 t0 t1).errors =
      (runPipeline ags (initState st0 t0)).errors := rfl
  rw [hrr]
  unfold runPipeline stateAtInvocation
  rw [runStage_errors, delayNode_eq]
  unfold afterBranch
  rw [afterEdgeCases_plagiarism_check]
  cases hf : st0.plagiarism_check with
  | false =>
      rw [if_neg (by simp), if_neg (by simp)]
      unfold afterEdgeCases afterReadability afterComplexity afterCorrectness
      rw [runStage_errors, delayNode_eq, runStage_errors, delayNode_eq,
        runStage_errors, delayNode_eq, runStage_errors]
      have hie : (initState st0 t0).errors = [] := rfl
      rw [hie]
      simp [List.append_assoc]
  | true =>
      rw [if_pos rfl, if_pos rfl]
      rw [runStage_errors, delayNode_eq]
      unfold afterEdgeCases afterReadability afterComplexity afterCorrectness
      rw [runStage_errors, delayNode_eq, runStage_errors, delayNode_eq,
        runStage_errors, delayNode_eq, runStage_errors]
      have hie : (initState st0 t0).errors = [] := rfl
      rw [hie]
      simp [List.append_assoc]

/-- The execution log of a full run, by flag value. -/
theorem runReview_agentLog {ρ : Type} (ags : Agents ρ) (st0 : ReviewState ρ)
    (t0 t1 : Rat) (hlog : st0.agentLog = []) :
    (runReview ags st0 t0 t1).agentLog =
      expectedAgentLog st0.plagiarism_check := by
  have hrr : (runReview ags st0 t0 t1).agentLog =
      (runPipeline ags (initState st0 t0)).agentLog := rfl
  rw [hrr]
  unfold runPipeline
  rw [runStage_agentLog, delayNode_eq]
  unfold afterBranch
  rw [afterEdgeCases_plagiarism_check]
  cases hf : st0.plagiarism_check with
  | false =>
      rw [if_neg (by simp)]
      unfold afterEdgeCases afterReadability afterComplexity afterCorrectness
      simp [initState, hlog, stageName, expectedAgentLog]
  | true =>
      rw [if_pos rfl]
      rw [runStage_agentLog, delayNode_eq]
      unfold afterEdgeCases afterReadability afterComplexity afterCorrectness
      simp [initState, hlog, stageName, expectedAgentLog]

theorem runReview_times {ρ : Type} (ags : Agents ρ) (st0 : ReviewState ρ)
    (t0 t1 : Rat) :
    (runReview ags st0 t0 t1).start_time = some t0 ∧
    (runReview ags st0 t0 t1).end_time = some t1 ∧
    (runReview ags st0 t0 t1).duration = some (t1 - t0) := by
  refine ⟨?_, rfl, rfl⟩
  have hrr : (runReview ags st0 t0 t1).start_time =
      (runPipeline ags (initState st0 t0)).start_time := rfl
  rw [hrr]
  unfold runPipeline
  rw [runStage_start_time, delayNode_eq]
  unfold afterBranch
  split
  · rw [runStage_start_time, delayNode_eq]
    unfold afterEdgeCases afterReadability afterComplexity afterCorrectness
    simp [initState]
  · unfold afterEdgeCases afterReadability afterComplexity afterCorrectness
    simp [initState]

theorem afterBranch_getResult_ne {ρ : Type} (ags : Agents ρ)
    (st : ReviewState ρ) {s' : Stage} (h : s' ≠ .plagiarism) :
    getResult s' (afterBranch ags st) = getResult s' (afterEdgeCases ags st) := by
  unfold afterBranch
  by_cases hb : (afterEdgeCases ags st).plagiarism_check = true
  · rw [if_pos hb, runStage_getResult_ne ags _ h, delayNode_eq]
  · rw [if_neg hb]

/-- C3: if one stage's invocation raises, the orchestrator catches it,
appends exactly one `"<Label>: <message>"` error record for that stage,
leaves that stage's result key absent, still runs every stage of the route
(the full execution log), and the run terminates with start/end times and
duration stamped - regardless of what the other stages do. -/
theorem C3_stage_failure_isolated {ρ : Type} (ags : Agents ρ)
    (st0 : ReviewState ρ) (t0 t1 : Rat) (s : Stage) (msg : String)
    (hlog : st0.agentLog = [])
    (hres : getResult s st0 = none)
    (hplag : s = .plagiarism → st0.plagiarism_check = true)
    (hfail : invocation ags s (stateAtInvocation ags (initState st0 t0) s) =
      .error msg) :
    getResult s (runReview ags st0 t0 t1) = none ∧
    ((runReview ags st0 t0 t1).errors.countP (errIsFor s)) = 1 ∧
    (runReview ags st0 t0 t1).agentLog = expectedAgentLog st0.plagiarism_check ∧
    (runReview ags st0 t0 t1).start_time = some t0 ∧
    (runReview ags st0 t0 t1).end_time = some t1 ∧
    (runReview ags st0 t0 t1).duration = some (t1 - t0) := by
  refine ⟨?_, ?_, runReview_agentLog ags st0 t0 t1 hlog,
    (runReview_times ags st0 t0 t1).1, (runReview_times ags st0 t0 t1).2.1,
    (runReview_times ags st0 t0 t1).2.2⟩
  · have hrr : getResult s (runReview ags st0 t0 t1) =
        getResult s (runPipeline ags (initState st0 t0)) := by cases s <;> rfl
    have hinit : getResult s (initState st0 t0) = none := by
      cases s <;> exact hres
    rw [hrr]
    cases s with
    | correctness =>
        have hf2 : invocation ags .correctness (initState st0 t0) = .error msg := hfail
        unfold runPipeline
        rw [runStage_getResult_ne ags _ (by decide), delayNode_eq,
          afterBranch_getResult_ne ags _ (by decide)]
        unfold afterEdgeCases afterReadability afterComplexity afterCorrectness
        rw [runStage_getResult_ne ags _ (by decide), delayNode_eq,
          runStage_getResult_ne ags _ (by decide), delayNode_eq,
          runStage_getResult_ne ags _ (by decide), delayNode_eq,
          runStage_getResult_err ags _ _ hf2]
        exact hinit
    | complexity =>
        have hf2 : invocation ags .complexity
            (afterCorrectness ags (initState st0 t0)) = .error msg := hfail
        unfold runPipeline
        rw [runStage_getResult_ne ags _ (by decide), delayNode_eq,
          afterBranch_getResult_ne ags _ (by decide)]
        unfold afterEdgeCases afterReadability afterComplexity
        rw [runStage_getResult_ne ags _ (by decide), delayNode_eq,
          runStage_getResult_ne ags _ (by decide), delayNode_eq,
          runStage_getResult_err ags _ _ hf2]
        unfold afterCorrectness
        rw [delayNode_eq, runStage_getResult_ne ags _ (by decide)]
        exact hinit
    | readability =>
        have hf2 : invocation ags .readability
            (afterComplexity ags (initState st0 t0)) = .error msg := hfail
        unfold runPipeline
        rw [runStage_getResult_ne ags _ (by decide), delayNode_eq,
          afterBranch_getResult_ne ags _ (by decide)]
        unfold afterEdgeCases afterReadability
        rw [runStage_getResult_ne ags _ (by decide), delayNode_eq,
          runStage_getResult_err ags _ _ hf2]
        unfold afterComplexity afterCorrectness
        rw [delayNode_eq, runStage_getResult_ne ags _ (by decide),
          delayNode_eq, runStage_getResult_ne ags _ (by decide)]
        exact hinit
    | edgeCases =>
        have hf2 : invocation ags .edgeCases
            (afterReadability ags (initState st0 t0)) = .error msg := hfail
        unfold runPipeline
        rw [runStage_getResult_ne ags _ (by decide), delayNode_eq,
          afterBranch_getResult_ne ags _ (by decide)]
        unfold afterEdgeCases
        rw [runStage_getResult_err ags _ _ hf2]
        unfold afterReadability afterComplexity afterCorrectness
        rw [delayNode_eq, runStage_getResult_ne ags _ (by decide),
          delayNode_eq, runStage_getResult_ne ags _ (by decide),
          delayNode_eq, runStage_getResult_ne ags _ (by decide)]
        exact hinit
    | plagiarism =>
        have hf2 : invocation ags .plagiarism
            (delayNode (afterEdgeCases ags (initState st0 t0))) = .error msg := hfail
        have hbt : (afterEdgeCases ags (initState st0 t0)).plagiarism_check = true := by
          rw [afterEdgeCases_plagiarism_check]
          exact hplag rfl
        unfold runPipeline
        rw [runStage_getResult_ne ags _ (by decide), delayNode_eq]
        unfold afterBranch
        rw [if_pos hbt, runStage_getResult_err ags _ _ hf2, delayNode_eq]
        unfold afterEdgeCases afterReadability afterComplexity afterCorrectness
        rw [runStage_getResult_ne ags _ (by decide), delayNode_eq,
          runStage_getResult_ne ags _ (by decide), delayNode_eq,
          runStage_getResult_ne ags _ (by decide), delayNode_eq,
          runStage_getResult_ne ags _ (by decide)]
        exact hinit
    | summarizer =>
        have hf2 : invocation ags .summarizer
            (delayNode (afterBranch ags (initState st0 t0))) = .error msg := hfail
        unfold runPipeline
        rw [runStage_getResult_err ags _ _ hf2, delayNode_eq,
          afterBranch_getResult_ne ags _ (by decide)]
        unfold afterEdgeCases afterReadability afterComplexity afterCorrectness
        rw [runStage_getResult_ne ags _ (by decide), delayNode_eq,
          runStage_getResult_ne ags _ (by decide), delayNode_eq,
          runStage_getResult_ne ags _ (by decide), delayNode_eq,
          runStage_getResult_ne ags _ (by decide)]
        exact hinit
  · rw [runReview_errors]
    simp only [List.countP_append]
    cases s with
    | correctness =>
        rw [countP_errContrib_self ags _ _ hfail,
          countP_errContrib_other ags (by decide : Stage.correctness ≠ .complexity),
          countP_errContrib_other ags (by decide : Stage.correctness ≠ .readability),
          countP_errContrib_other ags (by decide : Stage.correctness ≠ .edgeCases),
          countP_errContrib_other ags (by decide : Stage.correctness ≠ .summarizer)]
        cases hf : st0.plagiarism_check with
        | false => simp
        | true =>
            rw [if_pos rfl,
              countP_errContrib_other ags (by decide : Stage.correctness ≠ .plagiarism)]
    | complexity =>
        rw [countP_errContrib_self ags _ _ hfail,
          countP_errContrib_other ags (by decide : Stage.complexity ≠ .correctness),
          countP_errContrib_other ags (by decide : Stage.complexity ≠ .readability),
          countP_errContrib_other ags (by decide : Stage.complexity ≠ .edgeCases),
          countP_errContrib_other ags (by decide : Stage.complexity ≠ .summarizer)]
        cases hf : st0.plagiarism_check with
        | false => simp
        | true =>
            rw [if_pos rfl,
              countP_errContrib_other ags (by decide : Stage.complexity ≠ .plagiarism)]
    | readability =>
        rw [countP_errContrib_self ags _ _ hfail,
          countP_errContrib_other ags (by decide : Stage.readability ≠ .correctness),
          countP_errContrib_other ags (by decide : Stage.readability ≠ .complexity),
          countP_errContrib_other ags (by decide : Stage.readability ≠ .edgeCases),
          countP_errContrib_other ags (by decide : Stage.readability ≠ .summarizer)]
        cases hf : st0.plagiarism_check with
        | false => simp
        | true =>
            rw [if_pos rfl,
              countP_errContrib_other ags (by decide : Stage.readability ≠ .plagiarism)]
    | edgeCases =>
        rw [countP_errContrib_self ags _ _ hfail,
          countP_errContrib_other ags (by decide : Stage.edgeCases ≠ .correctness),
          countP_errContrib_other ags (by decide : Stage.edgeCases ≠ .complexity),
          countP_errContrib_other ags (by decide : Stage.edgeCases ≠ .readability),
          countP_errContrib_other ags (by decide : Stage.edgeCases ≠ .summarizer)]
        cases hf : st0.plagiarism_check with
        | false => simp
        | true =>
            rw [if_pos rfl,
              countP_errContrib_other ags (by decide : Stage.edgeCases ≠ .plagiarism)]
    | plagiarism =>
        cases hf : st0.plagiarism_check with
        | false => exact absurd (hf.symm.trans (hplag rfl)) (by decide)
        | true =>
            rw [if_pos rfl, countP_errContrib_self ags _ _ hfail,
              countP_errContrib_other ags (by decide : Stage.plagiarism ≠ .correctness),
              countP_errContrib_other ags (by decide : Stage.plagiarism ≠ .complexity),
              countP_errContrib_other ags (by decide : Stage.plagiarism ≠ .readability),
              countP_errContrib_other ags (by decide : Stage.plagiarism ≠ .edgeCases),
              countP_errContrib_other ags (by decide : Stage.plagiarism ≠ .summarizer)]
    | summarizer =>
        rw [countP_errContrib_self ags _ _ hfail,
          countP_errContrib_other ags (by decide : Stage.summarizer ≠ .correctness),
          countP_errContrib_other ags (by decide : Stage.summarizer ≠ .complexity),
          countP_errContrib_other ags (by decide : Stage.summarizer ≠ .readability),
          countP_errContrib_other ags (by decide : Stage.summarizer ≠ .edgeCases)]
        cases hf : st0.plagiarism_check with
        | false => simp
        | true =>
            rw [if_pos rfl,
              countP_errContrib_other ags (by decide : Stage.summarizer ≠ .plagiarism)]

/-! ### Concrete runs for the workflow theorems -/

/-- Agents over `Nat` reports where every stage succeeds. -/
def agentsOk : Agents Nat :=
  { correctness := fun _ _ => .ok 1,
    complexity := fun _ _ => .ok 2,
    readability := fun _ _ _ => .ok 3,
    edge_cases := fun _ _ => .ok 4,
    plagiarism := fun _ => .ok 5,
    summarizer := fun _ _ _ _ _ _ _ => .ok 6 }

/-- Agents where the complexity stage always raises. -/
def agentsFailCx : Agents Nat :=
  { correctness := fun _ _ => .ok 1,
    complexity := fun _ _ => .error "boom",
    readability := fun _ _ _ => .ok 3,
    edge_cases := fun _ _ => .ok 4,
    plagiarism := fun _ => .ok 5,
    summarizer := fun _ _ _ _ _ _ _ => .ok 6 }

/-- A fresh request with the similarity flag off. -/
def st0false : ReviewState Nat :=
  { code := "x = 1", language := "python", user_id := "u1",
    plagiarism_check := false,
    correctness_result := none, complexity_result := none,
    readability_result := none, edge_cases_result := none,
    plagiarism_result := none, summarizer_result := none,
    current_agent := "", agentLog := [], errors := ["stale"],
    start_time := none, end_time := none, duration := none }

theorem C9_similarity_stage_conditional_witness :
    (runReview agentsOk st0false 0 1).agentLog =
      ["correctness", "complexity", "readability", "edge_cases", "summarizer"] ∧
    "plagiarism" ∉ (runReview agentsOk st0false 0 1).agentLog ∧
    (runReview agentsOk st0false 0 1).plagiarism_result = none := by
  have h := (C9_similarity_stage_conditional agentsOk st0false 0 1 rfl).1 rfl
  exact ⟨h.1, h.2.1, h.2.2.trans rfl⟩

theorem C3_stage_failure_isolated_witness :
    getResult .complexity (runReview agentsFailCx st0false 0 1) = none ∧
    ((runReview agentsFailCx st0false 0 1).errors.countP
      (errIsFor .complexity)) = 1 ∧
    (runReview agentsFailCx st0false 0 1).agentLog =
      expectedAgentLog st0false.plagiarism_check ∧
    (runReview agentsFailCx st0false 0 1).start_time = some 0 ∧
    (runReview agentsFailCx st0false 0 1).end_time = some 1 ∧
    (runReview agentsFailCx st0false 0 1).duration = some (1 - 0) :=
  C3_stage_failure_isolated agentsFailCx st0false 0 1 .complexity "boom"
    rfl rfl (fun h => nomatch h) rfl

/-! ## ReadabilityAgent visitors (src/agents/readability.py:232-329)

Three `ast.NodeVisitor`s, each carrying an `issues` list and a `score` that
starts at 10 and is decremented per violation.  None of them clamps the
score at 0 (only the aggregate style score is clamped, readability.py:229).
The embedding threads the visitor state through the same traversal
(`generic_visit` recurses into children in field order); the documentation
and structure visitors override no expression node kinds, so their folds
recurse through statements only. -/

/-- `ast.get_docstring(node)`: the node body's first statement is an
expression statement holding a string constant. -/
def hasDocstring : List PyStmt → Bool
  | .exprS (.const (.strV _)) :: _ => true
  | _ => false

/-! ### DocumentationVisitor (readability.py:266-294) -/

structure DocState where
  issues : List String
  score : Rat
  functions_with_docstring : Nat
  total_functions : Nat

def docInit : DocState := ⟨[], 10, 0, 0⟩

mutual

def docVisitStmt (st : DocState) : PyStmt → DocState
  | .functionDef name _ body l _ =>
      let st1 := { st with total_functions := st.total_functions + 1 }
      let st2 := if hasDocstring body then
          { st1 with functions_with_docstring := st1.functions_with_docstring + 1 }
        else
          { st1 with
            issues := st1.issues ++
              ["Line " ++ toString l ++ ": Function '" ++ name ++ "' missing docstring"],
            score := st1.score - 1 }
      docVisitStmts st2 body
  | .classDef name body l =>
      let st1 := if hasDocstring body then st
        else
          { st with
            issues := st.issues ++
              ["Line " ++ toString l ++ ": Class '" ++ name ++ "' missing docstring"],
            score := st.score - 1 }
      docVisitStmts st1 body
  | .forS _ _ body _ => docVisitStmts st body
  | .whileS _ body _ => docVisitStmts st body
  | .ifS _ b o => docVisitStmts (docVisitStmts st b) o
  | .assign _ _ _ => st
  | .exprS _ => st
  | .importS _ => st
  | .importFrom _ => st
  | .ret _ => st

def docVisitStmts (st : DocState) : List PyStmt → DocState
  | [] => st
  | s :: rest => docVisitStmts (docVisitStmt st s) rest

end

/-- `visit_Module` then the children. -/
def docVisitModule (m : PyModule) : DocState :=
  let st := if hasDocstring m.body then docInit
    else
      { docInit with
        issues := docInit.issues ++ ["Module missing docstring"],
        score := docInit.score - 1 }
  docVisitStmts st m.body

mutual

/-- Number of missing-docstring violations in a subtree. -/
def docMissS : PyStmt → Nat
  | .functionDef _ _ body _ _ =>
      (if hasDocstring body then 0 else 1) + docMissL body
  | .classDef _ body _ => (if hasDocstring body then 0 else 1) + docMissL body
  | .forS _ _ body _ => docMissL body
  | .whileS _ body _ => docMissL body
  | .ifS _ b o => docMissL b + docMissL o
  | .assign _ _ _ => 0
  | .exprS _ => 0
  | .importS _ => 0
  | .importFrom _ => 0
  | .ret _ => 0

def docMissL : List PyStmt → Nat
  | [] => 0
  | s :: rest => docMissS s + docMissL rest

end

theorem docVisit_score_formula :
    (∀ s : PyStmt, ∀ st : DocState,
      (docVisitStmt st s).score = st.score - (docMissS s : Rat)) ∧
    (∀ l : List PyStmt, ∀ st : DocState,
      (docVisitStmts st l).score = st.score - (docMissL l : Rat)) := by
  refine @normStmt.mutual_induct
    (fun s => ∀ st : DocState, (docVisitStmt st s).score = st.score - (docMissS s : Rat))
    (fun l => ∀ st : DocState, (docVisitStmts st l).score = st.score - (docMissL l : Rat))
    ?_ ?_ ?_ ?_ ?_ ?_ ?_ ?_ ?_ ?_ ?_ ?_
  · intro name args body l e ih st
    by_cases hd : hasDocstring body = true <;>
      simp [docVisitStmt, docMissS, hd, ih] <;> push_cast <;> ring
  · intro name body l ih st
    by_cases hd : hasDocstring body = true <;>
      simp [docVisitStmt, docMissS, hd, ih] <;> push_cast <;> ring
  · intro t i body l ih st
    simp [docVisitStmt, docMissS, ih]
  · intro t body l ih st
    simp [docVisitStmt, docMissS, ih]
  · intro t b o ihb iho st
    simp [docVisitStmt, docMissS, ihb, iho]
    push_cast
    ring
  · intro t v l st; simp [docVisitStmt, docMissS]
  · intro v st; simp [docVisitStmt, docMissS]
  · intro ns st; simp [docVisitStmt, docMissS]
  · intro m st; simp [docVisitStmt, docMissS]
  · intro v st; simp [docVisitStmt, docMissS]
  · intro st; simp [docVisitStmts, docMissL]
  · intro s rest ihs ihrest st
    simp [docVisitStmts, docMissL, ihs, ihrest]
    push_cast
    ring

/-! ### NamingConventionVisitor (readability.py:232-263) -/

/-- Python `str.islower()` over the ASCII identifiers at hand: at least one
cased (alphabetic) character and no uppercase one. -/
def pyIsLower (s : String) : Bool :=
  s.data.any Char.isAlpha && s.data.all (fun c => !c.isUpper)

/-- `not node.name.islower() or '_' not in node.name`. -/
def badFunctionName (name : String) : Bool :=
  !pyIsLower name || !(name.data.contains '_')

/-- `not node.name[0].isupper()` (an empty class name cannot come from the
parser). -/
def badClassName (name : String) : Bool :=
  match name.data with
  | [] => true
  | c :: _ => !c.isUpper

def allowedSingle : List String := ["i", "j", "k", "x", "y"]

/-- `len(node.id) == 1 and node.id not in ['i', 'j', 'k', 'x', 'y']`. -/
def badVarName (id : String) : Bool :=
  id.length = 1 && !(allowedSingle.contains id)

structure NamingState where
  issues : List String
  score : Rat
  function_count : Nat
  class_count : Nat

def namingInit : NamingState := ⟨[], 10, 0, 0⟩

/-- `visit_Name` fires on Store-context names; its message carries the
node's line, which the expression embedding does not record - the text of
issue entries is not used by any claim. -/
def namingVisitExpr (st : NamingState) : PyExpr → NamingState
  | .name id ctx =>
      if ctx = .store ∧ badVarName id then
        { st with
          issues := st.issues ++
            ["Variable '" ++ id ++ "' - consider a more descriptive name"],
          score := st.score - 0.5 }
      else st
  | .const _ => st
  | .binOp l r => namingVisitExpr (namingVisitExpr st l) r
  | .call f a => namingVisitExpr (namingVisitExpr st f) a
  | .ifExp t b o => namingVisitExpr (namingVisitExpr (namingVisitExpr st t) b) o

mutual

def namingVisitStmt (st : NamingState) : PyStmt → NamingState
  | .functionDef name _ body l _ =>
      let st1 := { st with function_count := st.function_count + 1 }
      let st2 := if badFunctionName name then
          { st1 with
            issues := st1.issues ++
              ["Line " ++ toString l ++ ": Function '" ++ name ++
                "' should use snake_case"],
            score := st1.score - 1 }
        else st1
      namingVisitStmts st2 body
  | .classDef name body l =>
      let st1 := { st with class_count := st.class_count + 1 }
      let st2 := if badClassName name then
          { st1 with
            issues := st1.issues ++
              ["Line " ++ toString l ++ ": Class '" ++ name ++
                "' should use CamelCase"],
            score := st1.score - 1 }
        else st1
      namingVisitStmts st2 body
  | .forS t i body _ =>
      namingVisitStmts (namingVisitExpr (namingVisitExpr st t) i) body
  | .whileS t body _ => namingVisitStmts (namingVisitExpr st t) body
  | .ifS t b o =>
      namingVisitStmts (namingVisitStmts (namingVisitExpr st t) b) o
  | .assign t v _ => namingVisitExpr (namingVisitExpr st t) v
  | .exprS v => namingVisitExpr st v
  | .importS _ => st
  | .importFrom _ => st
  | .ret v => namingVisitExpr st v

def namingVisitStmts (st : NamingState) : List PyStmt → NamingState
  | [] => st
  | s :: rest => namingVisitStmts (namingVisitStmt st s) rest

end

def namingVisit (m : PyModule) : NamingState := namingVisitStmts namingInit m.body

/-- Store-context single-letter-variable violations in an expression. -/
def badVarCountE : PyExpr → Nat
  | .name id ctx => if ctx = .store ∧ badVarName id then 1 else 0
  | .const _ => 0
  | .binOp l r => badVarCountE l + badVarCountE r
  | .call f a => badVarCountE f + badVarCountE a
  | .ifExp t b o => badVarCountE t + badVarCountE b + badVarCountE o

mutual

/-- Unit-penalty (bad function / class name) violations in a subtree. -/
def namingUnitS : PyStmt → Nat
  | .functionDef name _ body _ _ =>
      (if badFunctionName name then 1 else 0) + namingUnitL body
  | .classDef name body _ =>
      (if badClassName name then 1 else 0) + namingUnitL body
  | .forS _ _ body _ => namingUnitL body
  | .whileS _ body _ => namingUnitL body
  | .ifS _ b o => namingUnitL b + namingUnitL o
  | .assign _ _ _ => 0
  | .exprS _ => 0
  | .importS _ => 0
  | .importFrom _ => 0
  | .ret _ => 0

def namingUnitL : List PyStmt → Nat
  | [] => 0
  | s :: rest => namingUnitS s + namingUnitL rest

end

mutual

/-- Half-penalty (single-letter variable) violations in a subtree. -/
def namingHalfS : PyStmt → Nat
  | .functionDef _ _ body _ _ => namingHalfL body
  | .classDef _ body _ => namingHalfL body
  | .forS t i body _ => badVarCountE t + badVarCountE i + namingHalfL body
  | .whileS t body _ => badVarCountE t + namingHalfL body
  | .ifS t b o => badVarCountE t + namingHalfL b + namingHalfL o
  | .assign t v _ => badVarCountE t + badVarCountE v
  | .exprS v => badVarCountE v
  | .importS _ => 0
  | .importFrom _ => 0
  | .ret v => badVarCountE v

def namingHalfL : List PyStmt → Nat
  | [] => 0
  | s :: rest => namingHalfS s + namingHalfL rest

end

theorem namingVisitExpr_score (e : PyExpr) (st : NamingState) :
    (namingVisitExpr st e).score = st.score - (badVarCountE e : Rat) / 2 := by
  induction e generalizing st with
  | name id ctx =>
      by_cases h : ctx = PyCtx.store ∧ badVarName id = true <;>
        simp [namingVisitExpr, badVarCountE, h] <;> norm_num
  | const v => simp [namingVisitExpr, badVarCountE]
  | binOp l r ihl ihr =>
      simp [namingVisitExpr, badVarCountE, ihl, ihr]
      push_cast
      ring
  | call f a ihf iha =>
      simp [namingVisitExpr, badVarCountE, ihf, iha]
      push_cast
      ring
  | ifExp t b o iht ihb iho =>
      simp [namingVisitExpr, badVarCountE, iht, ihb, iho]
      push_cast
      ring

theorem namingVisit_score_formula :
    (∀ s : PyStmt, ∀ st : NamingState,
      (namingVisitStmt st s).score =
        st.score - (namingUnitS s : Rat) - (namingHalfS s : Rat) / 2) ∧
    (∀ l : List PyStmt, ∀ st : NamingState,
      (namingVisitStmts st l).score =
        st.score - (namingUnitL l : Rat) - (namingHalfL l : Rat) / 2) := by
  refine @normStmt.mutual_induct
    (fun s => ∀ st : NamingState, (namingVisitStmt st s).score =
      st.score - (namingUnitS s : Rat) - (namingHalfS s : Rat) / 2)
    (fun l => ∀ st : NamingState, (namingVisitStmts st l).score =
      st.score - (namingUnitL l : Rat) - (namingHalfL l : Rat) / 2)
    ?_ ?_ ?_ ?_ ?_ ?_ ?_ ?_ ?_ ?_ ?_ ?_
  · intro name args body l e ih st
    by_cases hb : badFunctionName name = true <;>
      · simp [namingVisitStmt, namingUnitS, namingHalfS, hb, ih]
        try push_cast
        try ring
  · intro name body l ih st
    by_cases hb : badClassName name = true <;>
      · simp [namingVisitStmt, namingUnitS, namingHalfS, hb, ih]
        try push_cast
        try ring
  · intro t i body l ih st
    simp [namingVisitStmt, namingUnitS, namingHalfS, ih, namingVisitExpr_score]
    push_cast
    ring
  · intro t body l ih st
    simp [namingVisitStmt, namingUnitS, namingHalfS, ih, namingVisitExpr_score]
    push_cast
    ring
  · intro t b o ihb iho st
    simp [namingVisitStmt, namingUnitS, namingHalfS, ihb, iho, namingVisitExpr_score]
    push_cast
    ring
  · intro t v l st
    simp [namingVisitStmt, namingUnitS, namingHalfS, namingVisitExpr_score]
    push_cast
    ring
  · intro v st
    simp [namingVisitStmt, namingUnitS, namingHalfS, namingVisitExpr_score]
  · intro ns st; simp [namingVisitStmt, namingUnitS, namingHalfS]
  · intro m st; simp [namingVisitStmt, namingUnitS, namingHalfS]
  · intro v st
    simp [namingVisitStmt, namingUnitS, namingHalfS, namingVisitExpr_score]
  · intro st; simp [namingVisitStmts, namingUnitL, namingHalfL]
  · intro s rest ihs ihrest st
    simp [namingVisitStmts, namingUnitL, namingHalfL, ihs, ihrest]
    push_cast
    ring

/-! ### StructureVisitor (readability.py:297-329) -/

structure StructState where
  issues : List String
  score : Rat
  function_lengths : List Int
  avg_function_length : Rat

def structInit : StructState := ⟨[], 10, [], 0⟩

mutual

def structVisitStmt (st : StructState) : PyStmt → StructState
  | .functionDef name args body l e =>
      let function_lines : Int := (e : Int) - (l : Int)
      let st1 := { st with
        function_lengths := st.function_lengths ++ [function_lines] }
      let st2 := if function_lines > 50 then
          { st1 with
            issues := st1.issues ++
              ["Line " ++ toString l ++ ": Function '" ++ name ++
                "' is too long (" ++ toString function_lines ++ " lines)"],
            score := st1.score - 1 }
        else if function_lines > 30 then
          { st1 with
            issues := st1.issues ++
              ["Line " ++ toString l ++ ": Consider breaking down function '" ++
                name ++ "'"],
            score := st1.score - 0.5 }
        else st1
      let st3 := if args.length > 5 then
          { st2 with
            issues := st2.issues ++
              ["Line " ++ toString l ++ ": Function '" ++ name ++
                "' has too many arguments (" ++ toString args.length ++ ")"],
            score := st2.score - 1 }
        else st2
      structVisitStmts st3 body
  | .classDef _ body _ => structVisitStmts st body
  | .forS _ _ body _ => structVisitStmts st body
  | .whileS _ body _ => structVisitStmts st body
  | .ifS _ b o => structVisitStmts (structVisitStmts st b) o
  | .assign _ _ _ => st
  | .exprS _ => st
  | .importS _ => st
  | .importFrom _ => st
  | .ret _ => st

def structVisitStmts (st : StructState) : List PyStmt → StructState
  | [] => st
  | s :: rest => structVisitStmts (structVisitStmt st s) rest

end

/-- `visit_Module` runs first, when `function_lengths` is still empty, so
`avg_function_length` is computed over the empty list and stays 0. -/
def structVisitModule (m : PyModule) : StructState :=
  let st := structInit
  let st1 := if st.function_lengths ≠ [] then
      { st with avg_function_length :=
          (st.function_lengths.sum : Rat) / (st.function_lengths.length : Rat) }
    else st
  structVisitStmts st1 m.body

mutual

/-- Unit-penalty structure violations (span over 50 lines; more than 5
parameters). -/
def structUnitS : PyStmt → Nat
  | .functionDef _ args body l e =>
      (if ((e : Int) - (l : Int)) > 50 then 1 else 0) +
      (if args.length > 5 then 1 else 0) + structUnitL body
  | .classDef _ body _ => structUnitL body
  | .forS _ _ body _ => structUnitL body
  | .whileS _ body _ => structUnitL body
  | .ifS _ b o => structUnitL b + structUnitL o
  | .assign _ _ _ => 0
  | .exprS _ => 0
  | .importS _ => 0
  | .importFrom _ => 0
  | .ret _ => 0

def structUnitL : List PyStmt → Nat
  | [] => 0
  | s :: rest => structUnitS s + structUnitL rest

end

mutual

/-- Half-penalty structure violations (span in (30, 50]). -/
def structHalfS : PyStmt → Nat
  | .functionDef _ _ body l e =>
      (if ¬(((e : Int) - (l : Int)) > 50) ∧ ((e : Int) - (l : Int)) > 30
        then 1 else 0) + structHalfL body
  | .classDef _ body _ => structHalfL body
  | .forS _ _ body _ => structHalfL body
  | .whileS _ body _ => structHalfL body
  | .ifS _ b o => structHalfL b + structHalfL o
  | .assign _ _ _ => 0
  | .exprS _ => 0
  | .importS _ => 0
  | .importFrom _ => 0
  | .ret _ => 0

def structHalfL : List PyStmt → Nat
  | [] => 0
  | s :: rest => structHalfS s + structHalfL rest

end

theorem structVisit_score_formula :
    (∀ s : PyStmt, ∀ st : StructState,
      (structVisitStmt st s).score =
        st.score - (structUnitS s : Rat) - (structHalfS s : Rat) / 2) ∧
    (∀ l : List PyStmt, ∀ st : StructState,
      (structVisitStmts st l).score =
        st.score - (structUnitL l : Rat) - (structHalfL l : Rat) / 2) := by
  refine @normStmt.mutual_induct
    (fun s => ∀ st : StructState, (structVisitStmt st s).score =
      st.score - (structUnitS s : Rat) - (structHalfS s : Rat) / 2)
    (fun l => ∀ st : StructState, (structVisitStmts st l).score =
      st.score - (structUnitL l : Rat) - (structHalfL l : Rat) / 2)
    ?_ ?_ ?_ ?_ ?_ ?_ ?_ ?_ ?_ ?_ ?_ ?_
  · intro name args body l e ih st
    by_cases h1 : ((e : Int) - (l : Int)) > 50 <;>
      by_cases h2 : ((e : Int) - (l : Int)) > 30 <;>
      by_cases h3 : args.length > 5 <;>
      · simp [structVisitStmt, structUnitS, structHalfS, h1, h2, h3, ih]
        try push_cast
        try ring
  · intro name body l ih st
    simp [structVisitStmt, structUnitS, structHalfS, ih]
    try push_cast
    try ring
  · intro t i body l ih st
    simp [structVisitStmt, structUnitS, structHalfS, ih]
  · intro t body l ih st
    simp [structVisitStmt, structUnitS, structHalfS, ih]
  · intro t b o ihb iho st
    simp [structVisitStmt, structUnitS, structHalfS, ihb, iho]
    push_cast
    ring
  · intro t v l st; simp [structVisitStmt, structUnitS, structHalfS]
  · intro v st; simp [structVisitStmt, structUnitS, structHalfS]
  · intro ns st; simp [structVisitStmt, structUnitS, structHalfS]
  · intro m st; simp [structVisitStmt, structUnitS, structHalfS]
  · intro v st; simp [structVisitStmt, structUnitS, structHalfS]
  · intro st; simp [structVisitStmts, structUnitL, structHalfL]
  · intro s rest ihs ihrest st
    simp [structVisitStmts, structUnitL, structHalfL, ihs, ihrest]
    push_cast
    ring

/-! ### Module-level score formulas and monotonicity -/

/-- Missing-docstring violations of the whole module (the module's own
docstring included). -/
def docMissModule (m : PyModule) : Nat :=
  (if hasDocstring m.body then 0 else 1) + docMissL m.body

theorem namingVisit_score (m : PyModule) :
    (namingVisit m).score =
      10 - (namingUnitL m.body : Rat) - (namingHalfL m.body : Rat) / 2 := by
  unfold namingVisit
  rw [namingVisit_score_formula.2]
  rfl

theorem docVisitModule_score (m : PyModule) :
    (docVisitModule m).score = 10 - (docMissModule m : Rat) := by
  unfold docVisitModule docMissModule
  by_cases hd : hasDocstring m.body = true <;>
    · simp [hd, docVisit_score_formula.2, docInit]
      try push_cast
      try ring

theorem structVisitModule_score (m : PyModule) :
    (structVisitModule m).score =
      10 - (structUnitL m.body : Rat) - (structHalfL m.body : Rat) / 2 := by
  unfold structVisitModule structInit
  rw [structVisit_score_formula.2]
  norm_num

theorem namingUnitL_append (a b : List PyStmt) :
    namingUnitL (a ++ b) = namingUnitL a + namingUnitL b := by
  induction a with
  | nil => simp [namingUnitL]
  | cons s rest ih => simp [namingUnitL, ih]; omega

theorem namingHalfL_append (a b : List PyStmt) :
    namingHalfL (a ++ b) = namingHalfL a + namingHalfL b := by
  induction a with
  | nil => simp [namingHalfL]
  | cons s rest ih => simp [namingHalfL, ih]; omega

theorem docMissL_append (a b : List PyStmt) :
    docMissL (a ++ b) = docMissL a + docMissL b := by
  induction a with
  | nil => simp [docMissL]
  | cons s rest ih => simp [docMissL, ih]; omega

theorem structUnitL_append (a b : List PyStmt) :
    structUnitL (a ++ b) = structUnitL a + structUnitL b := by
  induction a with
  | nil => simp [structUnitL]
  | cons s rest ih => simp [structUnitL, ih]; omega

theorem structHalfL_append (a b : List PyStmt) :
    structHalfL (a ++ b) = structHalfL a + structHalfL b := by
  induction a with
  | nil => simp [structHalfL]
  | cons s rest ih => simp [structHalfL, ih]; omega

/-- `ast.get_docstring` of a nonempty body only looks at the head. -/
theorem hasDocstring_cons_append (s : PyStmt) (r e : List PyStmt) :
    hasDocstring (s :: r ++ e) = hasDocstring (s :: r) := by
  cases s with
  | exprS v =>
      cases v with
      | const c => cases c <;> rfl
      | name a b => rfl
      | binOp a b => rfl
      | call a b => rfl
      | ifExp a b c => rfl
  | functionDef a b c d e => rfl
  | classDef a b c => rfl
  | forS a b c d => rfl
  | whileS a b c => rfl
  | ifS a b c => rfl
  | assign a b c => rfl
  | importS a => rfl
  | importFrom a => rfl
  | ret a => rfl

/-- A module with ten undocumented functions and no module docstring. -/
def undocFn : PyStmt := .functionDef "f_a" [] [.ret (.const .noneV)] 1 2

def m10 : PyModule :=
  ⟨[undocFn, undocFn, undocFn, undocFn, undocFn,
    undocFn, undocFn, undocFn, undocFn, undocFn]⟩

/-- C7 (counterexample): the documentation sub-score of a module with ten
undocumented functions and no module docstring is 10 - 11 = -1: the visitor
scores are not floored at zero and can go negative (only the aggregate style
score is clamped, readability.py:229). -/
theorem C7_doc_score_negative :
    (docVisitModule m10).score = -1 ∧ (docVisitModule m10).score < 0 := by
  have hm : docMissModule m10 = 11 := by decide
  have h := docVisitModule_score m10
  rw [hm] at h
  norm_num at h
  exact ⟨h, by rw [h]; norm_num⟩

/-- C7 (amended): each readability sub-score starts from 10 and subtracts a
fixed penalty per violation - 1 per unit violation and 0.5 per half-unit
violation - with no lower clamp: the score is `10 - unit - half/2`, is at
most 10, and appending further statements (in particular further violations)
never increases it; but it is not floored at zero and can be negative (see
the counterexample). -/
theorem C7_readability_scores_monotone (m : PyModule) (extra : List PyStmt) :
    (namingVisit m).score =
      10 - (namingUnitL m.body : Rat) - (namingHalfL m.body : Rat) / 2 ∧
    (docVisitModule m).score = 10 - (docMissModule m : Rat) ∧
    (structVisitModule m).score =
      10 - (structUnitL m.body : Rat) - (structHalfL m.body : Rat) / 2 ∧
    (namingVisit m).score ≤ 10 ∧
    (docVisitModule m).score ≤ 10 ∧
    (structVisitModule m).score ≤ 10 ∧
    (namingVisit ⟨m.body ++ extra⟩).score ≤ (namingVisit m).score ∧
    (m.body ≠ [] →
      (docVisitModule ⟨m.body ++ extra⟩).score ≤ (docVisitModule m).score) ∧
    (structVisitModule ⟨m.body ++ extra⟩).score ≤ (structVisitModule m).score := by
  have hu : (0 : Rat) ≤ (namingUnitL extra : Rat) := by positivity
  have hh : (0 : Rat) ≤ (namingHalfL extra : Rat) := by positivity
  refine ⟨namingVisit_score m, docVisitModule_score m, structVisitModule_score m,
    ?_, ?_, ?_, ?_, ?_, ?_⟩
  · rw [namingVisit_score]
    have h1 : (0 : Rat) ≤ (namingUnitL m.body : Rat) := by positivity
    have h2 : (0 : Rat) ≤ (namingHalfL m.body : Rat) := by positivity
    linarith
  · rw [docVisitModule_score]
    have h1 : (0 : Rat) ≤ (docMissModule m : Rat) := by positivity
    linarith
  · rw [structVisitModule_score]
    have h1 : (0 : Rat) ≤ (structUnitL m.body : Rat) := by positivity
    have h2 : (0 : Rat) ≤ (structHalfL m.body : Rat) := by positivity
    linarith
  · rw [namingVisit_score, namingVisit_score]
    simp only [namingUnitL_append, namingHalfL_append]
    push_cast
    linarith
  · intro hne
    rw [docVisitModule_score, docVisitModule_score]
    have hdoc : docMissModule ⟨m.body ++ extra⟩ =
        docMissModule m + docMissL extra := by
      unfold docMissModule
      cases hb : m.body with
      | nil => exact absurd hb hne
      | cons s rest =>
          rw [hasDocstring_cons_append]
          simp only [docMissL, List.append_eq]
          rw [docMissL_append]
          split <;> omega
    rw [hdoc]
    push_cast
    have h1 : (0 : Rat) ≤ (docMissL extra : Rat) := by positivity
    linarith
  · rw [structVisitModule_score, structVisitModule_score]
    simp only [structUnitL_append, structHalfL_append]
    push_cast
    have h1 : (0 : Rat) ≤ (structUnitL extra : Rat) := by positivity
    have h2 : (0 : Rat) ≤ (structHalfL extra : Rat) := by positivity
    linarith

theorem C7_readability_scores_monotone_witness :
    (docVisitModule ⟨m10.body ++ [undocFn]⟩).score ≤ (docVisitModule m10).score :=
  (C7_readability_scores_monotone m10 [undocFn]).2.2.2.2.2.2.2.1
    (by simp [m10])

end CodeReview
